import Mathlib

/-!
# Verification of the Multi-Agent Interview Coach core

A shallow embedding, in Lean 4, of the parts of the interview-coach
application that its specification makes claims about:

* the typed interview state and the difficulty controller
  (`src/app/schemas/interview.py`),
* the session orchestrator's turn pipeline
  (`src/app/interview/session.py`),
* the LM gateway's retry/backoff loop and JSON-mode capability flag
  (`src/app/llm/client.py`),
* the Observer's analysis parsing and fallback
  (`src/app/agents/observer.py`),
* the Evaluator's feedback parsing and fallback
  (`src/app/agents/evaluator.py`),
* the layered response parser (`src/app/llm/response_parser.py`),
  together with a JSON value type, a serializer mirroring `json.dumps`
  and a parser mirroring `json.loads` (integers only: the claims under
  study never involve floating-point numbers).

Python strings are modelled as `String`/`List Char` (sequences of code
points); Python `None` as `Option.none`; exceptions as `Except`/`Option`;
`datetime` timestamps are dropped (no claim mentions them).  Each agent's
LM call is a suspension point whose outcome is passed in explicitly as an
`Except` value (the oracle of the call), so the orchestration code around
the calls can be verified for every possible outcome.
-/

/-! ## Python string helpers -/

/-- The character class of Python's `str.strip()` / regex `\s` (ASCII part). -/
def isPySpace (c : Char) : Bool :=
  c = ' ' || c = '\t' || c = '\n' || c = '\r' || c = '\x0b' || c = '\x0c'

/-- Python `str.strip()` on a character list: drop whitespace at both ends. -/
def pyStripL (cs : List Char) : List Char :=
  ((cs.dropWhile isPySpace).reverse.dropWhile isPySpace).reverse

/-- Python `str.strip()` on a `String`. -/
def pyStripS (s : String) : String :=
  (pyStripL s.toList).asString

/-- Python `str.lower()` for the alphabets this code base uses
(ASCII and Russian Cyrillic; other code points are kept as is). -/
def pyLowerChar (c : Char) : Char :=
  if 'A' ≤ c ∧ c ≤ 'Z' then Char.ofNat (c.toNat + 32)
  else if 0x410 ≤ c.toNat ∧ c.toNat ≤ 0x42F then Char.ofNat (c.toNat + 0x20)
  else if c.toNat = 0x401 then Char.ofNat 0x451
  else c

/-- Python `str.lower()` on a `String` (see `pyLowerChar`). -/
def pyLowerS (s : String) : String :=
  (s.toList.map pyLowerChar).asString

/-- Python's `needle in haystack` substring test, on character lists. -/
def pyInL (needle : List Char) : List Char → Bool
  | [] => needle.isEmpty
  | c :: rest => needle.isPrefixOf (c :: rest) || pyInL needle rest

/-- Python's `needle in haystack` substring test, on strings. -/
def pyInS (needle haystack : String) : Bool :=
  pyInL needle.toList haystack.toList

/-- Python truthiness of an optional string (`None` and `""` are falsy). -/
def optStrTruthy : Option String → Bool
  | none => false
  | some s => s ≠ ""

/-- Replace the last element of a list (Python `xs[-1] = ...` after an
`if xs:` guard: the empty list is left alone). -/
def modifyLast (f : α → α) : List α → List α
  | [] => []
  | [a] => [f a]
  | a :: b :: rest => a :: modifyLast f (b :: rest)

/-! ## Data model (`src/app/schemas/interview.py`) -/

/-- `GradeLevel`: the candidate's declared level. -/
inductive GradeLevel where
  | intern | junior | middle | senior | lead
deriving DecidableEq, Repr

/-- `CandidateInfo`: accreted candidate data. -/
structure CandidateInfo where
  name : Option String := none
  position : Option String := none
  target_grade : Option GradeLevel := none
  experience : Option String := none
  technologies : List String := []
deriving DecidableEq, Repr

/-- `InternalThought`: an agent-to-agent note (timestamp dropped). -/
structure InternalThought where
  from_agent : String
  to_agent : String
  content : String
deriving DecidableEq, Repr

/-- `ResponseType`: the Observer's classification of the candidate reply. -/
inductive ResponseType where
  | normal | hallucination | off_topic | question
  | stop_command | introduction | incomplete | excellent
deriving DecidableEq, Repr

/-- `AnswerQuality`: the Observer's quality grade for the reply. -/
inductive AnswerQuality where
  | excellent | good | acceptable | poor | wrong
deriving DecidableEq, Repr

/-- `ExtractedCandidateInfo`: candidate facts the Observer extracted. -/
structure ExtractedCandidateInfo where
  name : Option String := none
  position : Option String := none
  grade : Option String := none
  experience : Option String := none
  technologies : List String := []
deriving DecidableEq, Repr

/-- `UNANSWERED_RESPONSE_TYPES`: response types for which the candidate by
definition did not answer the last technical question (the schema module
documents it as the fallback for a missing `answered_last_question`). -/
def UNANSWERED_RESPONSE_TYPES : List ResponseType :=
  [ResponseType.off_topic, ResponseType.question, ResponseType.stop_command]

/-- `ObserverAnalysis`: the Observer's structured verdict on one reply.
Field defaults mirror the pydantic model's defaults. -/
structure ObserverAnalysis where
  response_type : ResponseType
  quality : AnswerQuality
  is_factually_correct : Bool
  detected_topics : List String := []
  recommendation : String
  thoughts : List InternalThought := []
  should_simplify : Bool := false
  should_increase_difficulty : Bool := false
  correct_answer : Option String := none
  extracted_info : Option ExtractedCandidateInfo := none
  demonstrated_level : Option String := none
  answered_last_question : Bool := true
deriving DecidableEq, Repr

/-- `InterviewTurn`: one round of the dialogue (timestamp dropped). -/
structure InterviewTurn where
  turn_id : Nat
  agent_visible_message : String
  user_message : Option String := none
  internal_thoughts : List InternalThought := []
deriving DecidableEq, Repr

/-- `DifficultyLevel`: the four question-difficulty levels (values 1..4). -/
inductive DifficultyLevel where
  | basic | intermediate | advanced | expert
deriving DecidableEq, Repr

/-- The integer value of a difficulty level (`BASIC = 1` .. `EXPERT = 4`). -/
def DifficultyLevel.val : DifficultyLevel → Nat
  | .basic => 1
  | .intermediate => 2
  | .advanced => 3
  | .expert => 4

/-- `DifficultyLevel(n)` for `n ∈ 1..4`; the code only ever applies it inside
range guards, so the out-of-range value is arbitrary. -/
def DifficultyLevel.ofVal : Nat → DifficultyLevel
  | 1 => .basic
  | 2 => .intermediate
  | 3 => .advanced
  | 4 => .expert
  | _ => .basic

/-- One entry of `InterviewState.knowledge_gaps`
(a `{topic, user_answer, correct_answer}` dict in the source). -/
structure KnowledgeGap where
  topic : String
  user_answer : String
  correct_answer : Option String
deriving DecidableEq, Repr

/-- `InterviewState`: the session-wide interview state. -/
structure InterviewState where
  participant_name : String := "Неизвестный кандидат"
  candidate : CandidateInfo := {}
  job_description : Option String := none
  turns : List InterviewTurn := []
  current_turn : Nat := 0
  current_difficulty : DifficultyLevel := .basic
  covered_topics : List String := []
  confirmed_skills : List String := []
  knowledge_gaps : List KnowledgeGap := []
  is_active : Bool := true
  consecutive_good_answers : Nat := 0
  consecutive_bad_answers : Nat := 0
deriving DecidableEq, Repr

/-- `InterviewState.add_turn`: append a turn and advance the counter. -/
def InterviewState.add_turn (s : InterviewState) (t : InterviewTurn) : InterviewState :=
  { s with turns := s.turns ++ [t], current_turn := s.current_turn + 1 }

/-- `InterviewState.adjust_difficulty` (`src/app/schemas/interview.py`,
lines 266-288), translated statement by statement from the source; the
Python method mutates `self`, the embedding returns the updated state. -/
def InterviewState.adjust_difficulty (s : InterviewState) (analysis : ObserverAnalysis) :
    InterviewState :=
  if analysis.should_increase_difficulty then
    let s := { s with consecutive_good_answers := s.consecutive_good_answers + 1,
                      consecutive_bad_answers := 0 }
    if s.consecutive_good_answers ≥ 2 then
      let s :=
        if s.current_difficulty.val < DifficultyLevel.expert.val then
          { s with current_difficulty := DifficultyLevel.ofVal (s.current_difficulty.val + 1) }
        else s
      { s with consecutive_good_answers := 0 }
    else s
  else if analysis.should_simplify then
    let s := { s with consecutive_bad_answers := s.consecutive_bad_answers + 1,
                      consecutive_good_answers := 0 }
    if s.consecutive_bad_answers ≥ 2 then
      let s :=
        if s.current_difficulty.val > DifficultyLevel.basic.val then
          { s with current_difficulty := DifficultyLevel.ofVal (s.current_difficulty.val - 1) }
        else s
      { s with consecutive_bad_answers := 0 }
    else s
  else
    { s with consecutive_good_answers := 0, consecutive_bad_answers := 0 }

/-- The difficulty-controller transition exactly as claim C3 words it: the
streak reset is *gated together with* the level step ("if good ≥ 2 and
current_difficulty < Expert then difficulty steps up one level and
good := 0"), so at the Expert/Basic cap the claim's reading leaves the
streak counter untouched. -/
def adjust_difficulty_claimSpec (s : InterviewState) (analysis : ObserverAnalysis) :
    InterviewState :=
  if analysis.should_increase_difficulty then
    let good := s.consecutive_good_answers + 1
    if good ≥ 2 ∧ s.current_difficulty.val < DifficultyLevel.expert.val then
      { s with current_difficulty := DifficultyLevel.ofVal (s.current_difficulty.val + 1),
               consecutive_good_answers := 0, consecutive_bad_answers := 0 }
    else
      { s with consecutive_good_answers := good, consecutive_bad_answers := 0 }
  else if analysis.should_simplify then
    let bad := s.consecutive_bad_answers + 1
    if bad ≥ 2 ∧ s.current_difficulty.val > DifficultyLevel.basic.val then
      { s with current_difficulty := DifficultyLevel.ofVal (s.current_difficulty.val - 1),
               consecutive_bad_answers := 0, consecutive_good_answers := 0 }
    else
      { s with consecutive_bad_answers := bad, consecutive_good_answers := 0 }
  else
    { s with consecutive_good_answers := 0, consecutive_bad_answers := 0 }

/-- The difficulty-controller transition as amended: when a streak reaches 2
the streak counter is reset *unconditionally*, while the level steps only
when it is not already at its cap. -/
def adjust_difficulty_amendedSpec (s : InterviewState) (analysis : ObserverAnalysis) :
    InterviewState :=
  if analysis.should_increase_difficulty then
    let good := s.consecutive_good_answers + 1
    if good ≥ 2 then
      { s with current_difficulty :=
                 if s.current_difficulty.val < DifficultyLevel.expert.val then
                   DifficultyLevel.ofVal (s.current_difficulty.val + 1)
                 else s.current_difficulty,
               consecutive_good_answers := 0, consecutive_bad_answers := 0 }
    else
      { s with consecutive_good_answers := good, consecutive_bad_answers := 0 }
  else if analysis.should_simplify then
    let bad := s.consecutive_bad_answers + 1
    if bad ≥ 2 then
      { s with current_difficulty :=
                 if s.current_difficulty.val > DifficultyLevel.basic.val then
                   DifficultyLevel.ofVal (s.current_difficulty.val - 1)
                 else s.current_difficulty,
               consecutive_bad_answers := 0, consecutive_good_answers := 0 }
    else
      { s with consecutive_bad_answers := bad, consecutive_good_answers := 0 }
  else
    { s with consecutive_good_answers := 0, consecutive_bad_answers := 0 }

/-- A state sitting at the Expert cap with a good streak of 1: the input on
which `adjust_difficulty` and the claim's reading disagree. -/
def expertCapState : InterviewState :=
  { current_difficulty := .expert, consecutive_good_answers := 1 }

/-- An Observer analysis asking to increase difficulty. -/
def increaseAnalysis : ObserverAnalysis :=
  { response_type := .excellent, quality := .excellent, is_factually_correct := true,
    recommendation := "Усложнить вопросы", should_increase_difficulty := true }

/-! ## Session orchestrator (`src/app/interview/session.py`) and the
Interviewer's turn handler (`src/app/agents/interviewer.py`) -/

/-- The `.value` string of a `ResponseType` member. -/
def ResponseType.value : ResponseType → String
  | .normal => "normal"
  | .hallucination => "hallucination"
  | .off_topic => "off_topic"
  | .question => "question"
  | .stop_command => "stop_command"
  | .introduction => "introduction"
  | .incomplete => "incomplete"
  | .excellent => "excellent"

/-- The `.value` string of an `AnswerQuality` member. -/
def AnswerQuality.value : AnswerQuality → String
  | .excellent => "excellent"
  | .good => "good"
  | .acceptable => "acceptable"
  | .poor => "poor"
  | .wrong => "wrong"

/-- Python `str(b)` for a boolean (used in f-strings). -/
def pyBoolStr (b : Bool) : String := if b then "True" else "False"

/-- `InterviewSession._parse_grade`: map a grade string (lower-cased) to a
`GradeLevel`, defaulting to Junior. -/
def parse_grade (grade_str : String) : GradeLevel :=
  match pyLowerS grade_str with
  | "intern" => .intern
  | "junior" => .junior
  | "middle" => .middle
  | "senior" => .senior
  | "lead" => .lead
  | _ => .junior

/-- `InterviewSession._get_initial_difficulty`: seed difficulty from grade. -/
def get_initial_difficulty : GradeLevel → DifficultyLevel
  | .intern => .basic
  | .junior => .basic
  | .middle => .intermediate
  | .senior => .advanced
  | .lead => .expert

/-- `InterviewSession._update_candidate_info`: idempotent accretion of the
candidate record (set only fields that are unset; technologies are appended
with de-duplication).  Python truthiness of the string fields is modelled by
`optStrTruthy`. -/
def update_candidate_info (s : InterviewState) (extracted : ExtractedCandidateInfo) :
    InterviewState :=
  let s :=
    if optStrTruthy extracted.name ∧ ¬ optStrTruthy s.candidate.name then
      { s with candidate := { s.candidate with name := extracted.name } }
    else s
  let s :=
    if optStrTruthy extracted.position ∧ ¬ optStrTruthy s.candidate.position then
      { s with candidate := { s.candidate with position := extracted.position } }
    else s
  let s :=
    if optStrTruthy extracted.grade ∧ s.candidate.target_grade = none then
      let grade := parse_grade ((extracted.grade).getD "")
      { s with candidate := { s.candidate with target_grade := some grade },
               current_difficulty := get_initial_difficulty grade }
    else s
  let s :=
    if optStrTruthy extracted.experience ∧ ¬ optStrTruthy s.candidate.experience then
      { s with candidate := { s.candidate with experience := extracted.experience } }
    else s
  let techs := extracted.technologies.foldl
    (fun acc tech => if tech ≠ "" ∧ tech ∉ acc then acc ++ [tech] else acc)
    s.candidate.technologies
  { s with candidate := { s.candidate with technologies := techs } }

/-- `InterviewSession._update_state_from_analysis`: the commit-phase state
update (covered topics always; confirmed skills only for answered, correct,
high-quality replies; a knowledge gap only for an answered, factually wrong
reply). -/
def update_state_from_analysis (s : InterviewState) (analysis : ObserverAnalysis)
    (user_message : String) : InterviewState :=
  let covered := analysis.detected_topics.foldl
    (fun acc topic => if topic ∉ acc then acc ++ [topic] else acc)
    s.covered_topics
  let s := { s with covered_topics := covered }
  if ¬ analysis.answered_last_question then s
  else
    let s :=
      if (analysis.quality = .excellent ∨ analysis.quality = .good)
          ∧ analysis.is_factually_correct then
        let confirmed := analysis.detected_topics.foldl
          (fun acc topic => if topic ∉ acc then acc ++ [topic] else acc)
          s.confirmed_skills
        { s with confirmed_skills := confirmed }
      else s
    if ¬ analysis.is_factually_correct ∨ analysis.quality = .wrong then
      let gap : KnowledgeGap :=
        { topic := if analysis.detected_topics.isEmpty then "Общие знания"
                   else String.intercalate ", " analysis.detected_topics,
          user_answer := user_message.take 200,
          correct_answer := analysis.correct_answer }
      { s with knowledge_gaps := s.knowledge_gaps ++ [gap] }
    else s

/-- `InterviewerAgent._generate_fallback_response`: the canned reply the
Interviewer returns when its LM call fails. -/
def generate_fallback_response (analysis : ObserverAnalysis) : String :=
  if analysis.response_type = ResponseType.hallucination then
    "Хм, это довольно необычное утверждение. Я не встречал такой информации " ++
    "в официальной документации. Давайте вернёмся к моему вопросу — " ++
    "ответьте, пожалуйста, на него."
  else if analysis.response_type = ResponseType.question then
    "Отличный вопрос! Обычно на испытательном сроке новые разработчики " ++
    "погружаются в кодовую базу и выполняют первые задачи с поддержкой ментора. " ++
    "Конкретные детали обсудим после технической части интервью. " ++
    "А теперь вернёмся к моему предыдущему техническому вопросу — ответьте, пожалуйста."
  else
    "Хорошо, давайте продолжим. Ответьте, пожалуйста, на мой предыдущий технический вопрос."

/-- `InterviewerAgent._generate_thought`: the Interviewer's internal note
about the current analysis. -/
def generate_thought (analysis : ObserverAnalysis) : String :=
  let anchor_status :=
    if analysis.answered_last_question then "Кандидат ответил на вопрос."
    else "Кандидат НЕ ответил на вопрос — повторяю активный якорь."
  match analysis.response_type with
  | .introduction =>
      "Кандидат представился. Анализирую опыт и технологии для релевантных вопросов."
  | .hallucination =>
      "ALERT: Кандидат галлюцинирует! Корректирую ошибку и возвращаюсь к активному " ++
      "техническому вопросу. " ++ anchor_status ++ " Рекомендация: " ++ analysis.recommendation
  | .off_topic =>
      "Кандидат пытается сменить тему. " ++ anchor_status ++
      " Возвращаю к активному техническому вопросу."
  | .question =>
      "Кандидат задал встречный вопрос — отвечаю и возвращаюсь к активному " ++
      "техническому вопросу. " ++ anchor_status
  | .excellent =>
      "Отличный ответ! Уровень " ++ analysis.quality.value ++ ". " ++ anchor_status ++
      " Можно усложнить вопросы."
  | .incomplete =>
      "Неполный или уклончивый ответ. " ++ anchor_status ++
      " Попрошу раскрыть тему или дам подсказку."
  | _ =>
      "Анализ: качество=" ++ analysis.quality.value ++ ", корректность=" ++
      pyBoolStr analysis.is_factually_correct ++ ". " ++ anchor_status ++
      " Рекомендация: " ++ analysis.recommendation

/-- `InterviewerAgent.process` (`src/app/agents/interviewer.py`, lines
224-270): the LM call's outcome is the `llm_outcome` oracle.  The method
catches `LLMClientError` *and* every other exception around the call and
answers with `_generate_fallback_response`, so as embedded it never fails;
the `Except` result type records the interface `process_message` handles. -/
def interviewer_process (analysis : ObserverAnalysis)
    (llm_outcome : Except Unit String) :
    Except Unit (String × List InternalThought) :=
  let thoughts := analysis.thoughts ++
    [{ from_agent := "Interviewer", to_agent := "User", content := generate_thought analysis }]
  match llm_outcome with
  | .ok response => .ok (pyStripS response, thoughts)
  | .error _ => .ok (generate_fallback_response analysis, thoughts)

/-- What one call of `InterviewSession.process_message` produced: the reply,
the completion flag, the resulting state, and whether the Interviewer stage
was reached (instrumentation for the "no Interviewer call issued" claim). -/
structure ProcessOutcome where
  reply : String
  done : Bool
  state : InterviewState
  interviewer_called : Bool
deriving DecidableEq, Repr

/-- `InterviewSession.process_message` (`src/app/interview/session.py`,
lines 137-287), the turn pipeline: attach the user message to the tail turn,
run the Observer (its outcome, as `process_message` sees it, is
`observer_outcome`), accrete candidate info, short-circuit on a stop
command, snapshot and adjust difficulty, run the Interviewer, and commit
only afterwards.  Observability spans and logging have no state effect and
are dropped. -/
def process_message (max_turns : Nat) (state : InterviewState) (user_message : String)
    (observer_outcome : Except Unit ObserverAnalysis)
    (interviewer_llm_outcome : Except Unit String) : ProcessOutcome :=
  if ¬ state.is_active then
    { reply := "Интервью завершено.", done := true, state := state, interviewer_called := false }
  else
    let withUser :=
      modifyLast (fun t => { t with user_message := some user_message }) state.turns
    let state := { state with turns := withUser }
    match observer_outcome with
    | .error _ =>
      { reply := "Произошла техническая ошибка при обработке. " ++
                 "Попробуйте отправить сообщение ещё раз.",
        done := false, state := state, interviewer_called := false }
    | .ok analysis =>
      let state :=
        match analysis.extracted_info with
        | some extracted => update_candidate_info state extracted
        | none => state
      if analysis.response_type = ResponseType.stop_command then
        let withThoughts :=
          modifyLast (fun t => { t with internal_thoughts := analysis.thoughts }) state.turns
        let state := { state with turns := withThoughts }
        { reply := "Завершаю интервью и формирую фидбэк...", done := true,
          state := { state with is_active := false }, interviewer_called := false }
      else
        let saved_difficulty := state.current_difficulty
        let saved_good_streak := state.consecutive_good_answers
        let saved_bad_streak := state.consecutive_bad_answers
        let state :=
          if analysis.answered_last_question then state.adjust_difficulty analysis else state
        match interviewer_process analysis interviewer_llm_outcome with
        | .error _ =>
          { reply := "Произошла техническая ошибка при генерации ответа. " ++
                     "Попробуйте отправить сообщение ещё раз.",
            done := false,
            state := { state with current_difficulty := saved_difficulty,
                                  consecutive_good_answers := saved_good_streak,
                                  consecutive_bad_answers := saved_bad_streak },
            interviewer_called := true }
        | .ok (response, thoughts) =>
          let state := update_state_from_analysis state analysis user_message
          let withThoughts :=
            modifyLast (fun t => { t with internal_thoughts := thoughts }) state.turns
          let state := { state with turns := withThoughts }
          let state := state.add_turn
            { turn_id := state.current_turn + 1, agent_visible_message := response }
          if state.current_turn ≥ max_turns then
            { reply := response ++ "\n\n[Достигнут лимит вопросов. Формирую фидбэк...]",
              done := true, state := { state with is_active := false },
              interviewer_called := true }
          else
            { reply := response, done := false, state := state, interviewer_called := true }

/-- A mid-session state: the greeting turn is posed, difficulty Basic, a
good streak of 1 — the pre-turn state of claim C1's failing input. -/
def preTurnState : InterviewState :=
  { turns := [{ turn_id := 1, agent_visible_message := "Расскажите про GIL." }],
    current_turn := 1, consecutive_good_answers := 1 }

/-- An Observer analysis of a good answered reply that asks to raise the
difficulty (completing a 2-streak from `preTurnState`). -/
def normalIncreaseAnalysis : ObserverAnalysis :=
  { response_type := .normal, quality := .good, is_factually_correct := true,
    recommendation := "Продолжай интервью", should_increase_difficulty := true }

/-- A running session whose candidate now sends a stop command. -/
def stopState : InterviewState :=
  { turns := [{ turn_id := 1, agent_visible_message := "Что такое индекс в БД?" }],
    current_turn := 1 }

/-- An Observer analysis classifying the reply as a stop command. -/
def stopAnalysis : ObserverAnalysis :=
  { response_type := .stop_command, quality := .acceptable, is_factually_correct := true,
    recommendation := "Завершить интервью",
    thoughts := [{ from_agent := "Observer", to_agent := "Interviewer",
                   content := "Кандидат просит закончить." }] }

/-! ## LM gateway (`src/app/llm/client.py`) -/

/-- `_RETRY_BACKOFF_BASE` (0.5 s), as an exact rational. -/
def RETRY_BACKOFF_BASE : ℚ := 1 / 2

/-- `_RETRY_BACKOFF_MAX` (30.0 s). -/
def RETRY_BACKOFF_MAX : ℚ := 30

/-- `_RETRYABLE_HTTP_CODES`. -/
def RETRYABLE_HTTP_CODES : List Nat := [429, 500, 502, 503, 504]

/-- `LLMClient._compute_retry_delay`: `min(0.5 * 2**attempt, 30.0)`.  The
Python floats here are powers of two and 30.0, all exact, so ℚ models them
faithfully. -/
def compute_retry_delay (attempt : Nat) : ℚ :=
  min (RETRY_BACKOFF_BASE * 2 ^ attempt) RETRY_BACKOFF_MAX

/-- What one HTTP attempt inside `LLMClient.complete` can come back with:
a contents string, an HTTP error status with its body, a transport timeout,
a connection-level request error, or a 200 whose payload misses
`choices[0].message.content` / is not JSON (`KeyError` / `JSONDecodeError`). -/
inductive AttemptOutcome where
  | success (content : String)
  | httpStatus (code : Nat) (body : String)
  | timeout
  | requestError
  | invalidShape (msg : String)
deriving DecidableEq, Repr

/-- An attempt outcome the retry loop retries on. -/
def AttemptOutcome.isRetryable : AttemptOutcome → Bool
  | .httpStatus code _ => code ∈ RETRYABLE_HTTP_CODES
  | .timeout => true
  | .requestError => true
  | _ => false

/-- The `LLMClientError` cases `complete` can raise, kept structured (the
source formats them into the exception message). -/
inductive GatewayError where
  | httpError (code : Nat) (bodyPrefix : String)
  | invalidFormat (msg : String)
  | maxRetriesExceeded
deriving DecidableEq, Repr

/-- The observable behaviour of one `LLMClient.complete` call: its result,
the backoff sleeps it performed (attempt index paired with the delay in
seconds), and how many HTTP attempts it made. -/
structure CompleteRun where
  result : Except GatewayError String
  sleeps : List (Nat × ℚ)
  attempts : Nat
deriving Repr

/-- The shared `if attempt < self._max_retries: sleep(delay)` + `continue`
block of `complete`'s three retryable exception handlers: account the
current attempt and, when retries remain, the backoff sleep, in front of
the rest of the loop `r`. -/
def retryStep (max_retries attempt : Nat) (r : CompleteRun) : CompleteRun :=
  if attempt < max_retries then
    { r with sleeps := (attempt, compute_retry_delay attempt) :: r.sleeps,
             attempts := r.attempts + 1 }
  else { r with attempts := r.attempts + 1 }

/-- The body of `LLMClient.complete`'s `for attempt in range(max_retries+1)`
loop (`src/app/llm/client.py`, lines 187-281).  `oracle k` is what attempt
`k`'s HTTP round trip comes back with; `left` is the number of loop
iterations remaining (`max_retries + 1` at the start), making the recursion
structural.  Retryable failures sleep `_compute_retry_delay(attempt)` only
while attempts remain, a non-retryable HTTP status raises at once with the
status and the first 500 characters of the body, and an exhausted loop
raises the max-retries error. -/
def completeAux (max_retries : Nat) (oracle : Nat → AttemptOutcome) :
    Nat → Nat → CompleteRun
  | _, 0 => { result := .error .maxRetriesExceeded, sleeps := [], attempts := 0 }
  | attempt, left + 1 =>
    match oracle attempt with
    | .success content => { result := .ok content, sleeps := [], attempts := 1 }
    | .httpStatus code body =>
      if code ∈ RETRYABLE_HTTP_CODES then
        retryStep max_retries attempt (completeAux max_retries oracle (attempt + 1) left)
      else
        { result := .error (.httpError code (body.take 500)), sleeps := [], attempts := 1 }
    | .timeout =>
      retryStep max_retries attempt (completeAux max_retries oracle (attempt + 1) left)
    | .requestError =>
      retryStep max_retries attempt (completeAux max_retries oracle (attempt + 1) left)
    | .invalidShape msg =>
      { result := .error (.invalidFormat msg), sleeps := [], attempts := 1 }

/-- `LLMClient.complete` with `max_retries` configured: run the attempt loop
from attempt 0 with `max_retries + 1` iterations available. -/
def LLMClient.complete (max_retries : Nat) (oracle : Nat → AttemptOutcome) : CompleteRun :=
  completeAux max_retries oracle 0 (max_retries + 1)

/-- The attempt oracle of claim C7's witness: attempt 0 times out, attempt 1
hits HTTP 503, attempt 2 hits a non-retryable HTTP 404. -/
def witnessOracle : Nat → AttemptOutcome
  | 0 => .timeout
  | 1 => .httpStatus 503 "service unavailable"
  | _ => .httpStatus 404 "not found"

/-- `LLMClient._is_json_mode_unsupported_error`: does an error text look
like a rejected `response_format` request? -/
def is_json_mode_unsupported_error (error_text : String) : Bool :=
  let lower := pyLowerS error_text
  pyInS "response_format" lower ||
    (pyInS "json_object" lower && (pyInS "400" lower || pyInS "bad" lower))

/-- A JSON-ish record as `complete_json` returns it (the parsed payload is
irrelevant to the capability-flag claims, only its success/failure and the
error text matter). -/
structure JsonModeCall where
  /-- Outcome of `complete(..., json_mode=True)` followed by
  `_extract_json_from_text`, as one oracle: `.error` carries `str(e)`. -/
  probe : Except String (List (String × Nat))
  /-- Outcome of the same call chain with `json_mode=False`. -/
  text : Except String (List (String × Nat))

/-- The result of one `LLMClient.complete_json` call: the value or error it
ends with, the `_json_mode_supported` flag afterwards, and the `json_mode`
flags of the `complete` requests it issued, in order. -/
structure CompleteJsonRun where
  result : Except String (List (String × Nat))
  flag : Bool
  requests : List Bool
deriving Repr

/-- `LLMClient.__init__` (`src/app/llm/client.py`, line 61): the capability
flag starts true. -/
def LLMClient.init_json_mode_supported : Bool := true

/-- `LLMClient.complete_json` (`src/app/llm/client.py`, lines 321-373):
with the flag set, probe with a structured-output request; on an error
whose text `_is_json_mode_unsupported_error` recognizes, clear the flag and
fall through to text mode; on any other error re-raise; with the flag
cleared, go straight to text mode. -/
def LLMClient.complete_json (flag : Bool) (call : JsonModeCall) : CompleteJsonRun :=
  if flag then
    match call.probe with
    | .ok record => { result := .ok record, flag := true, requests := [true] }
    | .error e =>
      if is_json_mode_unsupported_error e then
        { result := call.text, flag := false, requests := [true, false] }
      else
        { result := .error e, flag := true, requests := [true] }
  else
    { result := call.text, flag := false, requests := [false] }

/-- A whole sequence of `complete_json` calls against one gateway instance:
thread the capability flag through, collecting the `json_mode` of every
request issued along the way. -/
def LLMClient.run_complete_json_calls (flag : Bool) :
    List JsonModeCall → Bool × List Bool
  | [] => (flag, [])
  | call :: rest =>
    let r := LLMClient.complete_json flag call
    let tail := LLMClient.run_complete_json_calls r.flag rest
    (tail.1, r.requests ++ tail.2)

/-- The probe failure of claim C8's witness: HTTP 400 with a body naming
`response_format`. -/
def unsupportedCall : JsonModeCall :=
  { probe := .error "HTTP error 400: response_format is not supported",
    text := .ok [("ok", 1)] }

/-! ## JSON values

Python objects as `json.loads` produces them and as the agents' parsers
consume them, restricted to the fragment the system uses: numbers are
integers (no claim involves floating point). -/

/-- A JSON value / the Python object a parsed LM payload is made of. -/
inductive Json where
  | null
  | bool (b : Bool)
  | num (n : Int)
  | str (s : String)
  | arr (items : List Json)
  | obj (members : List (String × Json))
deriving Repr

/-- Python `d[key]` / `d.get(key)` on a dict given as a key-value list
(Python dicts cannot repeat keys, so the first hit is the value). -/
def jsonGet (members : List (String × Json)) (key : String) : Option Json :=
  (members.find? (fun kv => kv.1 == key)).map (·.2)

/-- Python truthiness of a JSON value. -/
def Json.truthy : Json → Bool
  | .null => false
  | .bool b => b
  | .num n => n ≠ 0
  | .str s => s ≠ ""
  | .arr items => ¬ items.isEmpty
  | .obj members => ¬ members.isEmpty

/-! ## Observer (`src/app/agents/observer.py`) -/

/-- `ResponseType(value)` as a partial map (absent = `ValueError`). -/
def ResponseType.fromValue : String → Option ResponseType
  | "normal" => some .normal
  | "hallucination" => some .hallucination
  | "off_topic" => some .off_topic
  | "question" => some .question
  | "stop_command" => some .stop_command
  | "introduction" => some .introduction
  | "incomplete" => some .incomplete
  | "excellent" => some .excellent
  | _ => none

/-- `AnswerQuality(value)` as a partial map (absent = `ValueError`). -/
def AnswerQuality.fromValue : String → Option AnswerQuality
  | "excellent" => some .excellent
  | "good" => some .good
  | "acceptable" => some .acceptable
  | "poor" => some .poor
  | "wrong" => some .wrong
  | _ => none

/-- `ResponseType(response.get("response_type", "normal"))` under its
`except ValueError` guard: a missing key or an unknown (hashable) value
falls back to `NORMAL`; an unhashable value (list/dict) raises `TypeError`,
which the guard does not catch. -/
def parse_response_type_field (r : List (String × Json)) : Except Unit ResponseType :=
  match jsonGet r "response_type" with
  | none => .ok .normal
  | some (.str s) => .ok ((ResponseType.fromValue s).getD .normal)
  | some (.arr _) => .error ()
  | some (.obj _) => .error ()
  | some _ => .ok .normal

/-- `AnswerQuality(response.get("quality", "acceptable"))` under its
`except ValueError` guard, as for `parse_response_type_field`. -/
def parse_quality_field (r : List (String × Json)) : Except Unit AnswerQuality :=
  match jsonGet r "quality" with
  | none => .ok .acceptable
  | some (.str s) => .ok ((AnswerQuality.fromValue s).getD .acceptable)
  | some (.arr _) => .error ()
  | some (.obj _) => .error ()
  | some _ => .ok .acceptable

/-- A `str`-typed pydantic field fed from `response.get(key, default)`:
a missing key yields the default, a non-string raises a validation error.
(pydantic's lax coercions of non-string scalars are modelled as errors;
no claim under study depends on them.) -/
def parse_str_field (r : List (String × Json)) (key dflt : String) : Except Unit String :=
  match jsonGet r key with
  | none => .ok dflt
  | some (.str s) => .ok s
  | some _ => .error ()

/-- A `bool`-typed pydantic field fed from `response.get(key, default)`. -/
def parse_bool_field (r : List (String × Json)) (key : String) (dflt : Bool) :
    Except Unit Bool :=
  match jsonGet r key with
  | none => .ok dflt
  | some (.bool b) => .ok b
  | some _ => .error ()

/-- A `str | None`-typed pydantic field fed from `response.get(key)`. -/
def parse_opt_str_field (r : List (String × Json)) (key : String) :
    Except Unit (Option String) :=
  match jsonGet r key with
  | none => .ok none
  | some .null => .ok none
  | some (.str s) => .ok (some s)
  | some _ => .error ()

/-- A `list[str]`-typed pydantic value. -/
def parse_str_list (j : Json) : Except Unit (List String) :=
  match j with
  | .arr items =>
    items.foldr
      (fun item acc =>
        match item, acc with
        | .str s, .ok ss => .ok (s :: ss)
        | _, _ => .error ())
      (.ok [])
  | _ => .error ()

/-- A `list[str]`-typed pydantic field fed from `get(key, [])`. -/
def parse_str_list_field (r : List (String × Json)) (key : String) :
    Except Unit (List String) :=
  match jsonGet r key with
  | none => .ok []
  | some j => parse_str_list j

/-- The `extracted_info` block of `ObserverAgent._parse_analysis`:
`extracted_data = response.get("extracted_info", {})`; if it is truthy and
some non-`technologies` entry is truthy, build the full record; else if its
`technologies` entry is truthy, build a technologies-only record; else no
record.  A truthy non-dict crashes in `.items()`, a falsy non-dict crashes
in `.get` (`AttributeError`, caught only by `process`'s blanket handler). -/
def parse_extracted_info (r : List (String × Json)) :
    Except Unit (Option ExtractedCandidateInfo) :=
  match jsonGet r "extracted_info" with
  | none => .ok none
  | some j =>
    if j.truthy then
      match j with
      | .obj kvs =>
        if kvs.any (fun kv => kv.1 ≠ "technologies" ∧ kv.2.truthy) then
          match parse_opt_str_field kvs "name", parse_opt_str_field kvs "position",
                parse_opt_str_field kvs "grade", parse_opt_str_field kvs "experience",
                parse_str_list_field kvs "technologies" with
          | .ok name, .ok position, .ok grade, .ok experience, .ok technologies =>
            .ok (some { name := name, position := position, grade := grade,
                        experience := experience, technologies := technologies })
          | _, _, _, _, _ => .error ()
        else
          match jsonGet kvs "technologies" with
          | some tv =>
            if tv.truthy then
              match parse_str_list tv with
              | .ok technologies => .ok (some { technologies := technologies })
              | .error _ => .error ()
            else .ok none
          | none => .ok none
      | _ => .error ()
    else
      match j with
      | .obj _ => .ok none
      | _ => .error ()

/-- `ObserverAgent._parse_analysis` (`src/app/agents/observer.py`, lines
323-385): build the `ObserverAnalysis` from the parsed LM payload `r`.
The pydantic model's `answered_last_question` is *not* assigned from the
payload — the constructed record always carries the model default `true` —
and no `is_gibberish` field exists on the model at all.  A field whose
value breaks validation raises, which `ObserverAgent.process` turns into
the fallback analysis. -/
def parse_analysis (r : List (String × Json)) (user_message : String) :
    Except Unit ObserverAnalysis :=
  match parse_response_type_field r, parse_quality_field r,
        parse_str_field r "thoughts" "Анализ выполнен.",
        parse_extracted_info r,
        parse_bool_field r "is_factually_correct" true,
        parse_str_list_field r "detected_topics",
        parse_str_field r "recommendation" "Продолжай интервью",
        parse_bool_field r "should_simplify" false,
        parse_bool_field r "should_increase_difficulty" false,
        parse_opt_str_field r "correct_answer",
        parse_opt_str_field r "demonstrated_level" with
  | .ok rt, .ok q, .ok tc, .ok ei, .ok fact, .ok topics, .ok rec, .ok ss, .ok sid,
      .ok ca, .ok dl =>
    .ok { response_type := rt, quality := q, is_factually_correct := fact,
          detected_topics := topics, recommendation := rec,
          thoughts := [{ from_agent := "Observer", to_agent := "Interviewer", content := tc }],
          should_simplify := ss, should_increase_difficulty := sid,
          correct_answer := ca, extracted_info := ei, demonstrated_level := dl,
          answered_last_question := true }
  | _, _, _, _, _, _, _, _, _, _, _ => .error ()

/-- The stop-command substrings `_create_fallback_analysis` looks for. -/
def STOP_COMMAND_MARKERS : List String :=
  ["стоп", "stop", "хватит", "фидбэк", "завершить", "стоп игра"]

/-- `ObserverAgent._create_fallback_analysis` (`src/app/agents/observer.py`,
lines 387-419): the deterministic analysis used when the LM call or the
parse fails. -/
def create_fallback_analysis (user_message : String) : ObserverAnalysis :=
  let lower_msg := pyLowerS user_message
  let response_type :=
    if STOP_COMMAND_MARKERS.any (fun cmd => pyInS cmd lower_msg) then
      ResponseType.stop_command
    else if pyInS "?" user_message then ResponseType.question
    else ResponseType.normal
  { response_type := response_type, quality := .acceptable, is_factually_correct := true,
    detected_topics := [], recommendation := "Продолжай интервью",
    thoughts := [{ from_agent := "Observer", to_agent := "Interviewer",
                   content := "Fallback analysis used due to LLM error." }] }

/-- `ObserverAgent.process` (`src/app/agents/observer.py`, lines 201-234):
run the LM call (`llm_outcome` is its oracle, covering gateway errors and
unparseable content alike), parse its payload, and fall back to
`_create_fallback_analysis` on *any* failure — the method catches
`LLMClientError` and every other exception. -/
def observer_process (llm_outcome : Except Unit (List (String × Json)))
    (user_message : String) : ObserverAnalysis :=
  match llm_outcome with
  | .ok response =>
    match parse_analysis response user_message with
    | .ok analysis => analysis
    | .error _ => create_fallback_analysis user_message
  | .error _ => create_fallback_analysis user_message

/-- The gibberish LM payload of claim C2's failing input: the Observer
prompt's own worked example (`is_gibberish = true`,
`answered_last_question = false`). -/
def gibberishRecord : List (String × Json) :=
  [("response_type", .str "off_topic"), ("quality", .str "wrong"),
   ("is_factually_correct", .bool false), ("is_gibberish", .bool true),
   ("answered_last_question", .bool false), ("detected_topics", .arr []),
   ("recommendation", .str "Кандидат отправил бессмысленное сообщение. Повторить последний вопрос."),
   ("should_simplify", .bool false), ("should_increase_difficulty", .bool false),
   ("correct_answer", Json.null),
   ("extracted_info", .obj [("name", Json.null), ("technologies", .arr [])]),
   ("demonstrated_level", Json.null), ("thoughts", .str "Бессмыслица, не ответ.")]

/-- What `_parse_analysis` actually produces on `gibberishRecord`: note
`answered_last_question = true` despite the payload saying `false`. -/
def gibberishAnalysis : ObserverAnalysis :=
  { response_type := .off_topic, quality := .wrong, is_factually_correct := false,
    detected_topics := [],
    recommendation := "Кандидат отправил бессмысленное сообщение. Повторить последний вопрос.",
    thoughts := [{ from_agent := "Observer", to_agent := "Interviewer",
                   content := "Бессмыслица, не ответ." }],
    should_simplify := false, should_increase_difficulty := false,
    correct_answer := none, extracted_info := none, demonstrated_level := none,
    answered_last_question := true }

/-! ## Evaluator (`src/app/schemas/feedback.py`, `src/app/agents/evaluator.py`) -/

/-- `HiringRecommendation`. -/
inductive HiringRecommendation where
  | strong_hire | hire | no_hire
deriving DecidableEq, Repr

/-- `AssessedGrade`. -/
inductive AssessedGrade where
  | intern | junior | middle | senior | lead
deriving DecidableEq, Repr

/-- `ClarityLevel`. -/
inductive ClarityLevel where
  | excellent | good | average | poor
deriving DecidableEq, Repr

/-- `Verdict` (confidence validated into 0..100 by the caller's clamp). -/
structure Verdict where
  grade : AssessedGrade
  hiring_recommendation : HiringRecommendation
  confidence_score : Int
deriving DecidableEq, Repr

/-- `SkillAssessment`. -/
structure SkillAssessment where
  topic : String
  is_confirmed : Bool
  details : String
  correct_answer : Option String := none
deriving DecidableEq, Repr

/-- `TechnicalReview`. -/
structure TechnicalReview where
  confirmed_skills : List SkillAssessment := []
  knowledge_gaps : List SkillAssessment := []
deriving DecidableEq, Repr

/-- `SoftSkillsReview`. -/
structure SoftSkillsReview where
  clarity : ClarityLevel
  clarity_details : String
  honesty : String
  honesty_details : String
  engagement : String
  engagement_details : String
deriving DecidableEq, Repr

/-- `RoadmapItem` (priority validated into 1..5). -/
structure RoadmapItem where
  topic : String
  priority : Int
  reason : String
  resources : List String := []
deriving DecidableEq, Repr

/-- `PersonalRoadmap`. -/
structure PersonalRoadmap where
  items : List RoadmapItem := []
  summary : String
deriving DecidableEq, Repr

/-- `InterviewFeedback`. -/
structure InterviewFeedback where
  verdict : Verdict
  technical_review : TechnicalReview
  soft_skills_review : SoftSkillsReview
  roadmap : PersonalRoadmap
  general_comments : String
deriving DecidableEq, Repr

/-- `EvaluatorAgent._parse_grade`: lower-cased mapping, default Junior. -/
def EvaluatorAgent.parse_grade (grade_str : String) : AssessedGrade :=
  match pyLowerS grade_str with
  | "intern" => .intern
  | "junior" => .junior
  | "middle" => .middle
  | "senior" => .senior
  | "lead" => .lead
  | _ => .junior

/-- `EvaluatorAgent._parse_hiring_rec`: "strong" wins, then "no", else Hire. -/
def EvaluatorAgent.parse_hiring_rec (rec_str : String) : HiringRecommendation :=
  let lower := pyLowerS rec_str
  if pyInS "strong" lower then .strong_hire
  else if pyInS "no" lower then .no_hire
  else .hire

/-- `EvaluatorAgent._parse_clarity`: lower-cased mapping, default Average. -/
def EvaluatorAgent.parse_clarity (clarity_str : String) : ClarityLevel :=
  match pyLowerS clarity_str with
  | "excellent" => .excellent
  | "good" => .good
  | "average" => .average
  | "poor" => .poor
  | _ => .average

/-- `verdict_data.get("grade", "Junior")` fed to `_parse_grade`: a non-string
value crashes in `.lower()` (`AttributeError`). -/
def parse_assessed_grade_field (vkvs : List (String × Json)) : Except Unit AssessedGrade :=
  match jsonGet vkvs "grade" with
  | none => .ok (EvaluatorAgent.parse_grade "Junior")
  | some (.str s) => .ok (EvaluatorAgent.parse_grade s)
  | some _ => .error ()

/-- `verdict_data.get("hiring_recommendation", "No Hire")` fed to
`_parse_hiring_rec`. -/
def parse_hiring_field (vkvs : List (String × Json)) : Except Unit HiringRecommendation :=
  match jsonGet vkvs "hiring_recommendation" with
  | none => .ok (EvaluatorAgent.parse_hiring_rec "No Hire")
  | some (.str s) => .ok (EvaluatorAgent.parse_hiring_rec s)
  | some _ => .error ()

/-- `min(100, max(0, verdict_data.get("confidence_score", 50)))`: the clamp;
a Python bool is an int (`True = 1`), any other non-number makes `max`
raise `TypeError`. -/
def parse_confidence_field (vkvs : List (String × Json)) : Except Unit Int :=
  match jsonGet vkvs "confidence_score" with
  | none => .ok 50
  | some (.num n) => .ok (min 100 (max 0 n))
  | some (.bool b) => .ok (min 100 (max 0 (if b then (1 : Int) else 0)))
  | some _ => .error ()

/-- The `verdict` section of `_parse_feedback`:
`verdict_data = response.get("verdict", {})` followed by `.get` calls —
a non-dict value (in particular `null`) has no `.get` and raises. -/
def parse_verdict_section (r : List (String × Json)) : Except Unit Verdict :=
  match (jsonGet r "verdict").getD (.obj []) with
  | .obj vkvs =>
    match parse_assessed_grade_field vkvs, parse_hiring_field vkvs,
          parse_confidence_field vkvs with
    | .ok g, .ok h, .ok c =>
      .ok { grade := g, hiring_recommendation := h, confidence_score := c }
    | _, _, _ => .error ()
  | _ => .error ()

/-- A required `str` field of a pydantic record built with `**kwargs`. -/
def req_str (kvs : List (String × Json)) (key : String) : Except Unit String :=
  match jsonGet kvs key with
  | some (.str s) => .ok s
  | _ => .error ()

/-- A required `bool` field of a pydantic record built with `**kwargs`. -/
def req_bool (kvs : List (String × Json)) (key : String) : Except Unit Bool :=
  match jsonGet kvs key with
  | some (.bool b) => .ok b
  | _ => .error ()

/-- An optional `str | None` field of a pydantic record. -/
def opt_str (kvs : List (String × Json)) (key : String) : Except Unit (Option String) :=
  match jsonGet kvs key with
  | none => .ok none
  | some .null => .ok none
  | some (.str s) => .ok (some s)
  | some _ => .error ()

/-- `SkillAssessment(**s)`: `s` must be a dict with `topic`, `is_confirmed`,
`details` of the right types (extra keys are ignored; `**` of a non-dict or
a failing validation raises). -/
def parse_skill_assessment (j : Json) : Except Unit SkillAssessment :=
  match j with
  | .obj kvs =>
    match req_str kvs "topic", req_bool kvs "is_confirmed", req_str kvs "details",
          opt_str kvs "correct_answer" with
    | .ok topic, .ok is_confirmed, .ok details, .ok correct_answer =>
      .ok { topic := topic, is_confirmed := is_confirmed, details := details,
            correct_answer := correct_answer }
    | _, _, _, _ => .error ()
  | _ => .error ()

/-- `[SkillAssessment(**s) for s in tech_data.get(key, [])]`: a missing key
means the empty list; a non-list value fails when iterated/unpacked. -/
def parse_skill_list_field (tkvs : List (String × Json)) (key : String) :
    Except Unit (List SkillAssessment) :=
  match jsonGet tkvs key with
  | none => .ok []
  | some (.arr items) =>
    items.foldr
      (fun item acc =>
        match parse_skill_assessment item, acc with
        | .ok sa, .ok sas => .ok (sa :: sas)
        | _, _ => .error ())
      (.ok [])
  | some _ => .error ()

/-- The `technical_review` section of `_parse_feedback`. -/
def parse_technical_section (r : List (String × Json)) : Except Unit TechnicalReview :=
  match (jsonGet r "technical_review").getD (.obj []) with
  | .obj tkvs =>
    match parse_skill_list_field tkvs "confirmed_skills",
          parse_skill_list_field tkvs "knowledge_gaps" with
    | .ok cs, .ok kg => .ok { confirmed_skills := cs, knowledge_gaps := kg }
    | _, _ => .error ()
  | _ => .error ()

/-- The `soft_skills_review` section of `_parse_feedback`. -/
def parse_soft_section (r : List (String × Json)) : Except Unit SoftSkillsReview :=
  match (jsonGet r "soft_skills_review").getD (.obj []) with
  | .obj skvs =>
    match ((match jsonGet skvs "clarity" with
           | none => .ok (EvaluatorAgent.parse_clarity "Average")
           | some (.str s) => .ok (EvaluatorAgent.parse_clarity s)
           | some _ => .error ()) : Except Unit ClarityLevel),
          parse_str_field skvs "clarity_details" "",
          parse_str_field skvs "honesty" "Не определено",
          parse_str_field skvs "honesty_details" "",
          parse_str_field skvs "engagement" "Не определено",
          parse_str_field skvs "engagement_details" "" with
    | .ok c, .ok cd, .ok h, .ok hd, .ok e, .ok ed =>
      .ok { clarity := c, clarity_details := cd, honesty := h, honesty_details := hd,
            engagement := e, engagement_details := ed }
    | _, _, _, _, _, _ => .error ()
  | _ => .error ()

/-- `RoadmapItem(**item)`: `priority` is an `int` constrained to 1..5 by the
pydantic field, everything else as for `SkillAssessment`. -/
def parse_roadmap_item (j : Json) : Except Unit RoadmapItem :=
  match j with
  | .obj kvs =>
    match req_str kvs "topic",
          ((match jsonGet kvs "priority" with
           | some (.num n) => if 1 ≤ n ∧ n ≤ 5 then .ok n else .error ()
           | _ => .error ()) : Except Unit Int),
          req_str kvs "reason",
          parse_str_list_field kvs "resources" with
    | .ok topic, .ok priority, .ok reason, .ok resources =>
      .ok { topic := topic, priority := priority, reason := reason, resources := resources }
    | _, _, _, _ => .error ()
  | _ => .error ()

/-- The `roadmap` section of `_parse_feedback`. -/
def parse_roadmap_section (r : List (String × Json)) : Except Unit PersonalRoadmap :=
  match (jsonGet r "roadmap").getD (.obj []) with
  | .obj rkvs =>
    match ((match jsonGet rkvs "items" with
           | none => .ok []
           | some (.arr items) =>
             items.foldr
               (fun item acc =>
                 match parse_roadmap_item item, acc with
                 | .ok ri, .ok ris => .ok (ri :: ris)
                 | _, _ => .error ())
               (.ok ([] : List RoadmapItem))
           | some _ => .error ()) : Except Unit (List RoadmapItem)),
          parse_str_field rkvs "summary" "План развития не сформирован" with
    | .ok items, .ok summary => .ok { items := items, summary := summary }
    | _, _ => .error ()
  | _ => .error ()

/-- `EvaluatorAgent._parse_feedback` (`src/app/agents/evaluator.py`, lines
273-326): assemble the feedback from the parsed LM payload; any section
that raises makes the whole parse fail (caught by `process`).  The `state`
parameter mirrors the Python signature; the body never reads it. -/
def parse_feedback (response : List (String × Json)) (state : InterviewState) :
    Except Unit InterviewFeedback :=
  match parse_verdict_section response, parse_technical_section response,
        parse_soft_section response, parse_roadmap_section response,
        parse_str_field response "general_comments" "" with
  | .ok v, .ok t, .ok sk, .ok rm, .ok gc =>
    .ok { verdict := v, technical_review := t, soft_skills_review := sk,
          roadmap := rm, general_comments := gc }
  | _, _, _, _, _ => .error ()

/-- `EvaluatorAgent._create_fallback_feedback` (`src/app/agents/evaluator.py`,
lines 373-418). -/
def create_fallback_feedback (state : InterviewState) : InterviewFeedback :=
  { verdict := { grade := .junior, hiring_recommendation := .no_hire,
                 confidence_score := 30 },
    technical_review :=
      { confirmed_skills := state.confirmed_skills.map (fun skill =>
          { topic := skill, is_confirmed := true,
            details := "Подтверждено в ходе интервью" }),
        knowledge_gaps := state.knowledge_gaps.map (fun gap =>
          { topic := gap.topic, is_confirmed := false, details := "Выявлен пробел",
            correct_answer := gap.correct_answer }) },
    soft_skills_review :=
      { clarity := .average, clarity_details := "Оценка не проведена полностью",
        honesty := "Не определено", honesty_details := "",
        engagement := "Не определено", engagement_details := "" },
    roadmap := { items := [], summary := "Рекомендуется дополнительное интервью" },
    general_comments := "Фидбэк сгенерирован автоматически из-за технической ошибки." }

/-- `EvaluatorAgent.process` (`src/app/agents/evaluator.py`, lines 149-178):
the LM call's outcome is the oracle; every failure — gateway error or a
parse/validation error — yields the fallback feedback. -/
def evaluator_process (state : InterviewState)
    (llm_outcome : Except Unit (List (String × Json))) : InterviewFeedback :=
  match llm_outcome with
  | .ok response =>
    match parse_feedback response state with
    | .ok feedback => feedback
    | .error _ => create_fallback_feedback state
  | .error _ => create_fallback_feedback state

/-! ## JSON serializer and parser

`json.dumps` (default separators `", "` / `": "`, `ensure_ascii=False`) and
`json.loads`, over the integer fragment of JSON.  Known simplifications,
none of which the claims touch: numbers are integers (a float in the input
makes `loads` fail instead of producing a float); `\uXXXX` surrogate pairs
decode as two separate code units; digit runs with leading zeros are
accepted. -/

/-- JSON whitespace (`json.loads` skips exactly these). -/
def isJsonWs (c : Char) : Bool :=
  c = ' ' || c = '\t' || c = '\n' || c = '\r'

/-- Drop leading JSON whitespace. -/
def skipJsonWs : List Char → List Char
  | c :: rest => if isJsonWs c then skipJsonWs rest else c :: rest
  | [] => []

/-- An ASCII decimal digit (code points 48–57). -/
def isDigitChar (c : Char) : Bool := 48 ≤ c.toNat && c.toNat ≤ 57

/-- The digit character of `k < 10`. -/
def digitChar (k : Nat) : Char := Char.ofNat (48 + k)

/-- Decimal digit characters of `n / 10^(…)` down to the last digit;
`fuel` only bounds the recursion (each step divides by 10, so passing `n`
itself is always enough). -/
def natDigitsAux : Nat → Nat → List Char
  | 0, n => [digitChar (n % 10)]
  | fuel + 1, n =>
    if n < 10 then [digitChar n]
    else natDigitsAux fuel (n / 10) ++ [digitChar (n % 10)]

/-- Decimal digit characters of `n`, most significant first. -/
def natDigits (n : Nat) : List Char := natDigitsAux n n

/-- The characters of an integer: optional minus sign, then digits. -/
def intChars (i : Int) : List Char :=
  (if i < 0 then ['-'] else []) ++ natDigits i.natAbs

/-- The numeric value of a digit run. -/
def digitsToNat (ds : List Char) : Nat :=
  ds.foldl (fun acc c => acc * 10 + (c.toNat - 48)) 0

/-- Split off the leading run of digits. -/
def takeDigitRun : List Char → List Char × List Char
  | c :: rest =>
    if isDigitChar c then
      let (ds, r) := takeDigitRun rest
      (c :: ds, r)
    else ([], c :: rest)
  | [] => ([], [])

/-- The lowercase hex digit of `k < 16` (as `%04x` renders it). -/
def hexDigitChar (k : Nat) : Char :=
  if k < 10 then Char.ofNat (48 + k) else Char.ofNat (87 + k)

/-- The value of a hex digit character. -/
def hexDigitVal (c : Char) : Option Nat :=
  if '0' ≤ c ∧ c ≤ '9' then some (c.toNat - 48)
  else if 'a' ≤ c ∧ c ≤ 'f' then some (c.toNat - 87)
  else if 'A' ≤ c ∧ c ≤ 'F' then some (c.toNat - 55)
  else none

/-- One string character as `json.dumps(..., ensure_ascii=False)` emits it:
quote, backslash and the named control escapes backslash-escaped, the other
control characters as `\u00XX`, everything else verbatim. -/
def escapeChar (c : Char) : List Char :=
  if c = '"' then ['\\', '"']
  else if c = '\\' then ['\\', '\\']
  else if c = '\n' then ['\\', 'n']
  else if c = '\r' then ['\\', 'r']
  else if c = '\t' then ['\\', 't']
  else if c = '\x08' then ['\\', 'b']
  else if c = '\x0c' then ['\\', 'f']
  else if c.toNat < 0x20 then
    ['\\', 'u', '0', '0', hexDigitChar (c.toNat / 16), hexDigitChar (c.toNat % 16)]
  else [c]

/-- A string body, escaped. -/
def escapeStr (cs : List Char) : List Char := cs.flatMap escapeChar

mutual

/-- `json.dumps` with the default separators (`", "`, `": "`),
`ensure_ascii=False`, to a character list. -/
def dumpsVal : Json → List Char
  | .null => "null".toList
  | .bool true => "true".toList
  | .bool false => "false".toList
  | .num n => intChars n
  | .str s => '"' :: (escapeStr s.toList ++ ['"'])
  | .arr items => '[' :: (dumpsItems items ++ [']'])
  | .obj members => '{' :: (dumpsMembers members ++ ['}'])

/-- Array elements, `", "`-separated. -/
def dumpsItems : List Json → List Char
  | [] => []
  | j :: rest => dumpsVal j ++ dumpsItemsTail rest

/-- The `", "`-prefixed continuation of an element list. -/
def dumpsItemsTail : List Json → List Char
  | [] => []
  | j :: rest => ',' :: ' ' :: (dumpsVal j ++ dumpsItemsTail rest)

/-- Object members, `", "`-separated, each `"key": value`. -/
def dumpsMembers : List (String × Json) → List Char
  | [] => []
  | (k, v) :: rest =>
    ('"' :: (escapeStr k.toList ++ ['"'])) ++
      ':' :: ' ' :: (dumpsVal v ++ dumpsMembersTail rest)

/-- The `", "`-prefixed continuation of a member list. -/
def dumpsMembersTail : List (String × Json) → List Char
  | [] => []
  | (k, v) :: rest =>
    ',' :: ' ' :: (('"' :: (escapeStr k.toList ++ ['"'])) ++
      ':' :: ' ' :: (dumpsVal v ++ dumpsMembersTail rest))

end

/-- The inverse of a string escape character. -/
def unescapeChar : Char → Option Char
  | '"' => some '"'
  | '\\' => some '\\'
  | '/' => some '/'
  | 'b' => some '\x08'
  | 'f' => some '\x0c'
  | 'n' => some '\n'
  | 'r' => some '\r'
  | 't' => some '\t'
  | _ => none

/-- The body of a JSON string after the opening quote, as `json.loads`
reads it (strict mode: raw control characters are rejected). -/
def parseStringBody : List Char → Option (List Char × List Char)
  | '"' :: rest => some ([], rest)
  | '\\' :: 'u' :: h1 :: h2 :: h3 :: h4 :: rest =>
    (match hexDigitVal h1, hexDigitVal h2, hexDigitVal h3, hexDigitVal h4 with
     | some a, some b, some c, some d =>
       (parseStringBody rest).map
         (fun p => (Char.ofNat (((a * 16 + b) * 16 + c) * 16 + d) :: p.1, p.2))
     | _, _, _, _ => none)
  | '\\' :: e :: rest =>
    (match unescapeChar e with
     | some c => (parseStringBody rest).map (fun p => (c :: p.1, p.2))
     | none => none)
  | c :: rest =>
    if c.toNat < 0x20 then none
    else (parseStringBody rest).map (fun p => (c :: p.1, p.2))
  | [] => none

mutual

/-- One JSON value (leading whitespace already skipped; `fuel` only bounds
the recursion and is chosen larger than the input by `loads`). -/
def parseValue : Nat → List Char → Option (Json × List Char)
  | 0, _ => none
  | _ + 1, 'n' :: 'u' :: 'l' :: 'l' :: rest => some (.null, rest)
  | _ + 1, 't' :: 'r' :: 'u' :: 'e' :: rest => some (.bool true, rest)
  | _ + 1, 'f' :: 'a' :: 'l' :: 's' :: 'e' :: rest => some (.bool false, rest)
  | _ + 1, '"' :: rest =>
    (parseStringBody rest).map (fun p => (Json.str p.1.asString, p.2))
  | fuel + 1, '{' :: rest =>
    (match skipJsonWs rest with
     | '}' :: r2 => some (.obj [], r2)
     | r2 => (parseMembers fuel r2).map (fun p => (Json.obj p.1, p.2)))
  | fuel + 1, '[' :: rest =>
    (match skipJsonWs rest with
     | ']' :: r2 => some (.arr [], r2)
     | r2 => (parseItems fuel r2).map (fun p => (Json.arr p.1, p.2)))
  | _ + 1, '-' :: rest =>
    (match takeDigitRun rest with
     | ([], _) => none
     | (ds, r) => some (.num (-(digitsToNat ds : Int)), r))
  | _ + 1, c :: rest =>
    if isDigitChar c then
      (match takeDigitRun (c :: rest) with
       | (ds, r) => some (.num (digitsToNat ds), r))
    else none
  | _ + 1, [] => none

/-- One-or-more comma-separated `"key": value` members, then `}`. -/
def parseMembers : Nat → List Char → Option (List (String × Json) × List Char)
  | 0, _ => none
  | fuel + 1, cs =>
    match cs with
    | '"' :: rest =>
      (match parseStringBody rest with
       | some (key, r1) =>
         (match skipJsonWs r1 with
          | ':' :: r2 =>
            (match parseValue fuel (skipJsonWs r2) with
             | some (v, r3) =>
               (match skipJsonWs r3 with
                | ',' :: r4 =>
                  (parseMembers fuel (skipJsonWs r4)).map
                    (fun p => ((key.asString, v) :: p.1, p.2))
                | '}' :: r4 => some ([(key.asString, v)], r4)
                | _ => none)
             | none => none)
          | _ => none)
       | none => none)
    | _ => none

/-- One-or-more comma-separated values, then `]`. -/
def parseItems : Nat → List Char → Option (List Json × List Char)
  | 0, _ => none
  | fuel + 1, cs =>
    (match parseValue fuel cs with
     | some (v, r1) =>
       (match skipJsonWs r1 with
        | ',' :: r2 => (parseItems fuel (skipJsonWs r2)).map (fun p => (v :: p.1, p.2))
        | ']' :: r2 => some ([v], r2)
        | _ => none)
     | none => none)

end

/-- `json.loads`: parse one value surrounded by nothing but whitespace. -/
def loads (cs : List Char) : Option Json :=
  match parseValue (cs.length + 1) (skipJsonWs cs) with
  | some (v, rest) => if (skipJsonWs rest).isEmpty then some v else none
  | none => none

/-- `_try_parse_json` (`src/app/llm/response_parser.py`, lines 114-132):
strip, parse, and keep the result only if it is a dict. -/
def try_parse_json (cs : List Char) : Option Json :=
  let cleaned := pyStripL cs
  if cleaned.isEmpty then none
  else
    match loads cleaned with
    | some (Json.obj members) => some (Json.obj members)
    | _ => none

/-! ## Response parser (`src/app/llm/response_parser.py`) -/

/-- Eat `tag` (lowercase letters) case-insensitively off the front. -/
def eatTagCI : List Char → List Char → Option (List Char)
  | [], cs => some cs
  | t :: ts, c :: cs => if pyLowerChar c = t then eatTagCI ts cs else none
  | _ :: _, [] => none

/-- Match `<tag\s*>` (IGNORECASE) at the head of the input, returning the
remainder after `>`. -/
def matchOpenTag (tag cs : List Char) : Option (List Char) :=
  match cs with
  | c :: rest =>
    if c = '<' then
      match eatTagCI tag rest with
      | some r1 =>
        (match r1.dropWhile isPySpace with
         | '>' :: r2 => some r2
         | _ => none)
      | none => none
    else none
  | [] => none

/-- Match `</tag\s*>` (IGNORECASE) at the head of the input. -/
def matchCloseTag (tag cs : List Char) : Option (List Char) :=
  match cs with
  | x :: y :: rest =>
    if x = '<' ∧ y = '/' then
      match eatTagCI tag rest with
      | some r1 =>
        (match r1.dropWhile isPySpace with
         | '>' :: r2 => some r2
         | _ => none)
      | none => none
    else none
  | _ => none

/-- First `</tag>` occurrence: the content before it and the text after. -/
def findCloseTag (tag : List Char) : List Char → Option (List Char × List Char)
  | [] => none
  | c :: rest =>
    match matchCloseTag tag (c :: rest) with
    | some after => some ([], after)
    | none => (findCloseTag tag rest).map (fun p => (c :: p.1, p.2))

/-- `re.search` for `<tag\s*>(.*?)</tag\s*>` with DOTALL | IGNORECASE: the
leftmost opening tag that has a closing tag somewhere after it wins, and
the non-greedy group runs to the first closing tag. -/
def searchTag (tag : List Char) : List Char → Option (List Char)
  | [] => none
  | c :: rest =>
    match matchOpenTag tag (c :: rest) with
    | some afterOpen =>
      (match findCloseTag tag afterOpen with
       | some (content, _) => some content
       | none => searchTag tag rest)
    | none => searchTag tag rest

/-- Three consecutive backticks at the head of the input. -/
def matchTriple : List Char → Option (List Char)
  | '`' :: '`' :: '`' :: rest => some rest
  | _ => none

/-- First ``` occurrence: content before it and the text after. -/
def findTriple : List Char → Option (List Char × List Char)
  | [] => none
  | c :: rest =>
    match matchTriple (c :: rest) with
    | some after => some ([], after)
    | none => (findTriple rest).map (fun p => (c :: p.1, p.2))

/-- The optional literal `json` language tag of a code fence. -/
def eatJsonTag : List Char → List Char
  | 'j' :: 's' :: 'o' :: 'n' :: rest => rest
  | cs => cs

/-- `re.search` for ```` ```(?:json)?\s*\n?(.*?)``` ```` with DOTALL: after
an opening fence, consume the optional `json` tag and the whitespace run
(`\s*` is greedy, so the optional newline is folded into it), then take the
non-greedy group up to the first closing fence; if no closing fence
follows, the engine moves the starting point forward. -/
def fenceSearch : List Char → Option (List Char)
  | [] => none
  | c :: rest =>
    match matchTriple (c :: rest) with
    | some after =>
      (match findTriple ((eatJsonTag after).dropWhile isPySpace) with
       | some (content, _) => some content
       | none => fenceSearch rest)
    | none => fenceSearch rest

/-- Python `str.find(ch)` (index of first occurrence). -/
def pyFindChar (c : Char) : List Char → Option Nat
  | [] => none
  | x :: rest => if x = c then some 0 else (pyFindChar c rest).map (· + 1)

/-- Python `str.rfind(ch)` (index of last occurrence). -/
def pyRFindChar (c : Char) (cs : List Char) : Option Nat :=
  (pyFindChar c cs.reverse).map (fun i => cs.length - 1 - i)

/-- The balanced-braces fallback scan of `_extract_raw_json_object`: walk
from the first `{` keeping a depth counter that respects string literals
and backslash escapes; at the first balanced close, parse the candidate or
give up (`break`). -/
def scanBalancedAux (acc : List Char) (depth : Nat) (in_string escape_next : Bool) :
    List Char → Option Json
  | [] => none
  | ch :: rest =>
    if escape_next then scanBalancedAux (ch :: acc) depth in_string false rest
    else if ch = '\\' then
      scanBalancedAux (ch :: acc) depth in_string in_string rest
    else if ch = '"' then scanBalancedAux (ch :: acc) depth (!in_string) false rest
    else if in_string then scanBalancedAux (ch :: acc) depth in_string false rest
    else if ch = '{' then scanBalancedAux (ch :: acc) (depth + 1) in_string false rest
    else if ch = '}' then
      if depth = 1 then try_parse_json (ch :: acc).reverse
      else scanBalancedAux (ch :: acc) (depth - 1) in_string false rest
    else scanBalancedAux (ch :: acc) depth in_string false rest

/-- `_extract_raw_json_object` (`src/app/llm/response_parser.py`, lines
135-194): try the widest span from the first `{` to the last `}`; on
failure, the balanced scan. -/
def extract_raw_json_object (text : List Char) : Option Json :=
  match pyFindChar '{' text with
  | none => none
  | some start =>
    match pyRFindChar '}' text with
    | none => none
    | some stop =>
      if stop ≤ start then none
      else
        match try_parse_json ((text.take (stop + 1)).drop start) with
        | some j => some j
        | none => scanBalancedAux [] 0 false false (text.drop start)

/-- `extract_json_from_llm_response` (`src/app/llm/response_parser.py`,
lines 36-92): the four strategies in priority order — `<r>` tags,
`<result>` tags, a markdown code fence, then a raw `{...}` object; `none`
models the `ValueError` on empty input or when no strategy yields a dict. -/
def extract_json_from_llm_response (text : List Char) : Option Json :=
  if (pyStripL text).isEmpty then none
  else
    match (match searchTag ['r'] text with
           | some inner => try_parse_json (pyStripL inner)
           | none => none) with
    | some j => some j
    | none =>
      match (match searchTag ['r', 'e', 's', 'u', 'l', 't'] text with
             | some inner => try_parse_json (pyStripL inner)
             | none => none) with
      | some j => some j
      | none =>
        match (match fenceSearch text with
               | some inner => try_parse_json (pyStripL inner)
               | none => none) with
        | some j => some j
        | none => extract_raw_json_object text

/-- The `<r>…</r>` wrapping of claim C6. -/
def wrapR (s : List Char) : List Char :=
  ['<', 'r', '>'] ++ s ++ ['<', '/', 'r', '>']

/-- The `<result>…</result>` wrapping of claim C6. -/
def wrapResult (s : List Char) : List Char :=
  ['<', 'r', 'e', 's', 'u', 'l', 't', '>'] ++ s ++
    ['<', '/', 'r', 'e', 's', 'u', 'l', 't', '>']

/-- The ```` ```json\n…\n``` ```` wrapping of claim C6. -/
def wrapFence (s : List Char) : List Char :=
  ['`', '`', '`', 'j', 's', 'o', 'n', '\n'] ++ s ++ ['\n', '`', '`', '`']

/-- The `"prefix " + s + " suffix"` wrapping of claim C6. -/
def wrapText (s : List Char) : List Char :=
  "prefix ".toList ++ s ++ " suffix".toList

/-- Does the two-character pattern `a b` occur anywhere? -/
def hasPair2 (a b : Char) : List Char → Bool
  | x :: y :: rest => (x = a ∧ y = b) || hasPair2 a b (y :: rest)
  | _ => false

/-- Do three consecutive backticks occur anywhere? -/
def hasTriple : List Char → Bool
  | x :: y :: z :: rest => (x = '`' ∧ y = '`' ∧ z = '`') || hasTriple (y :: z :: rest)
  | _ => false

/-- Does a `</tag>` close-tag match start anywhere? -/
def hasCloseTag (tag : List Char) : List Char → Bool
  | [] => false
  | c :: rest => (matchCloseTag tag (c :: rest)).isSome || hasCloseTag tag rest

/-- The head character, if any, is not a decimal digit.  A digit run is
parsed maximally, so the round-trip induction threads this condition on
whatever follows a serialized value. -/
def noDigitHead : List Char → Bool
  | [] => true
  | c :: _ => !isDigitChar c

/-- The dict of claim C6's counterexample: its only value contains a
complete `<r>…</r>` fragment whose inner text is itself a JSON object. -/
def counterexampleDict : Json :=
  Json.obj [("a", Json.str "<r>{}</r>")]

/-! ## Theorems -/

/-- `modifyLast` preserves the length of the list. -/
theorem modifyLast_length (f : α → α) : ∀ l : List α, (modifyLast f l).length = l.length
  | [] => rfl
  | [_] => rfl
  | _ :: b :: rest => by
      simp only [modifyLast, List.length_cons, modifyLast_length f (b :: rest)]

/-- `modifyLast` applies `f` to exactly the last element. -/
theorem modifyLast_getLast? (f : α → α) :
    ∀ l : List α, (modifyLast f l).getLast? = l.getLast?.map f
  | [] => rfl
  | [a] => by simp [modifyLast]
  | a :: b :: rest => by
      have ih := modifyLast_getLast? f (b :: rest)
      simp only [modifyLast]
      cases hm : modifyLast f (b :: rest) with
      | nil =>
          have := modifyLast_length f (b :: rest)
          rw [hm] at this
          simp at this
      | cons c cs =>
          rw [hm] at ih
          rw [List.getLast?_cons_cons, ih, List.getLast?_cons_cons]

/-- `_update_candidate_info` touches only the candidate record and the
difficulty seed: turns, the turn counter and the active flag are unchanged. -/
theorem update_candidate_info_frame (s : InterviewState) (e : ExtractedCandidateInfo) :
    (update_candidate_info s e).turns = s.turns
    ∧ (update_candidate_info s e).current_turn = s.current_turn
    ∧ (update_candidate_info s e).is_active = s.is_active := by
  simp only [update_candidate_info]
  split_ifs <;> exact ⟨rfl, rfl, rfl⟩

/-- **C4.**  During the commit phase of `process` a `knowledge_gap` entry
`{topic = join of detected_topics or a general default, user_answer = first
200 characters of user_message, correct_answer}` is appended if and only if
`answered_last_question` is true and (`is_factually_correct` is false or
`quality = Wrong`); in particular, whenever `answered_last_question` is
false (gibberish, off-topic, role reversal) the gap list is unchanged. -/
theorem update_state_knowledge_gap_iff (s : InterviewState) (analysis : ObserverAnalysis)
    (user_message : String) :
    (update_state_from_analysis s analysis user_message).knowledge_gaps =
      (if analysis.answered_last_question = true
          ∧ (analysis.is_factually_correct = false ∨ analysis.quality = .wrong) then
        s.knowledge_gaps ++
          [{ topic := if analysis.detected_topics.isEmpty then "Общие знания"
                      else String.intercalate ", " analysis.detected_topics,
             user_answer := user_message.take 200,
             correct_answer := analysis.correct_answer }]
      else s.knowledge_gaps) := by
  simp only [update_state_from_analysis]
  cases ha : analysis.answered_last_question <;>
    cases hf : analysis.is_factually_correct <;>
      split_ifs <;> simp_all

/-- **C5.**  When the Observer classifies the reply as a stop command,
`process_message` records the Observer's thoughts on the tail turn (the
turn list becomes exactly the old list with the user message attached and
`internal_thoughts := analysis.thoughts` on its last element), sets
`is_active` to false and returns done = true, appending no new turn and
issuing no Interviewer call — for every state, message and Interviewer-LM
oracle. -/
theorem process_message_stop_short_circuit
    (max_turns : Nat) (s : InterviewState) (user_message : String)
    (analysis : ObserverAnalysis) (llm : Except Unit String)
    (hactive : s.is_active = true)
    (hstop : analysis.response_type = ResponseType.stop_command) :
    (process_message max_turns s user_message (Except.ok analysis) llm).done = true
    ∧ (process_message max_turns s user_message (Except.ok analysis) llm).reply =
        "Завершаю интервью и формирую фидбэк..."
    ∧ (process_message max_turns s user_message (Except.ok analysis) llm).state.is_active = false
    ∧ (process_message max_turns s user_message (Except.ok analysis) llm).state.turns.length =
        s.turns.length
    ∧ (process_message max_turns s user_message (Except.ok analysis) llm).state.current_turn =
        s.current_turn
    ∧ (process_message max_turns s user_message (Except.ok analysis) llm).interviewer_called =
        false
    ∧ (process_message max_turns s user_message (Except.ok analysis) llm).state.turns =
        modifyLast (fun t => { t with internal_thoughts := analysis.thoughts })
          (modifyLast (fun t => { t with user_message := some user_message }) s.turns)
    ∧ ((process_message max_turns s user_message (Except.ok analysis) llm).state.turns.getLast?).map
          InterviewTurn.internal_thoughts =
        s.turns.getLast?.map (fun _ => analysis.thoughts) := by
  have hturns : (process_message max_turns s user_message (Except.ok analysis) llm).state.turns =
      modifyLast (fun t => { t with internal_thoughts := analysis.thoughts })
        (modifyLast (fun t => { t with user_message := some user_message }) s.turns) := by
    cases hinfo : analysis.extracted_info with
    | none =>
        simp [process_message, hactive, hstop, hinfo]
    | some extracted =>
        simp only [process_message, hactive, hstop, hinfo]
        simp
        rw [(update_candidate_info_frame _ extracted).1]
  have htail : ((process_message max_turns s user_message
        (Except.ok analysis) llm).state.turns.getLast?).map InterviewTurn.internal_thoughts =
      s.turns.getLast?.map (fun _ => analysis.thoughts) := by
    rw [hturns, modifyLast_getLast?, modifyLast_getLast?]
    cases s.turns.getLast? <;> rfl
  have hmain : (process_message max_turns s user_message (Except.ok analysis) llm).done = true
      ∧ (process_message max_turns s user_message (Except.ok analysis) llm).reply =
          "Завершаю интервью и формирую фидбэк..."
      ∧ (process_message max_turns s user_message (Except.ok analysis) llm).state.is_active = false
      ∧ (process_message max_turns s user_message (Except.ok analysis) llm).state.turns.length =
          s.turns.length
      ∧ (process_message max_turns s user_message (Except.ok analysis) llm).state.current_turn =
          s.current_turn
      ∧ (process_message max_turns s user_message (Except.ok analysis) llm).interviewer_called =
          false := by
    cases hinfo : analysis.extracted_info with
    | none =>
        simp [process_message, hactive, hstop, hinfo, modifyLast_length]
    | some extracted =>
        simp only [process_message, hactive, hstop, hinfo]
        simp [modifyLast_length]
        rw [(update_candidate_info_frame _ extracted).1, (update_candidate_info_frame _ extracted).2.1]
        simp [modifyLast_length]
  obtain ⟨h1, h2, h3, h4, h5, h6⟩ := hmain
  exact ⟨h1, h2, h3, h4, h5, h6, hturns, htail⟩

/-- **C1 (the code's actual behaviour at the claim's failing input).**
Pre-turn state: one turn posed, difficulty Basic, good streak 1.  The
Observer succeeds with a good answered reply that asks to raise the
difficulty; the Interviewer's LM call then fails (`Except.error ()`).
Because `InterviewerAgent.process` swallows the LM error and returns its
canned fallback reply, `process_message` never reaches its rollback branch:
the difficulty stays promoted to Intermediate, a second turn is committed,
and the reply is the Interviewer's fallback text, not the session's generic
error — contradicting the claim (and `session.py`'s own docstring), which
require the pre-turn difficulty and streaks back, a generic error, and no
committed turn. -/
theorem interviewer_llm_failure_still_commits_turn :
    (process_message 10 preTurnState "GIL — это блокировка интерпретатора."
        (Except.ok normalIncreaseAnalysis) (Except.error ())).state.current_difficulty =
      DifficultyLevel.intermediate
    ∧ (process_message 10 preTurnState "GIL — это блокировка интерпретатора."
        (Except.ok normalIncreaseAnalysis) (Except.error ())).state.turns.length = 2
    ∧ (process_message 10 preTurnState "GIL — это блокировка интерпретатора."
        (Except.ok normalIncreaseAnalysis) (Except.error ())).state.consecutive_good_answers = 0
    ∧ (process_message 10 preTurnState "GIL — это блокировка интерпретатора."
        (Except.ok normalIncreaseAnalysis) (Except.error ())).done = false
    ∧ (process_message 10 preTurnState "GIL — это блокировка интерпретатора."
        (Except.ok normalIncreaseAnalysis) (Except.error ())).reply =
      "Хорошо, давайте продолжим. Ответьте, пожалуйста, на мой предыдущий технический вопрос."
    ∧ (process_message 10 preTurnState "GIL — это блокировка интерпретатора."
        (Except.ok normalIncreaseAnalysis) (Except.error ())).reply ≠
      "Произошла техническая ошибка при генерации ответа. Попробуйте отправить сообщение ещё раз." := by
  refine ⟨rfl, rfl, rfl, rfl, ?_, ?_⟩ <;> decide

/-- **C3, counterexample.**  At difficulty Expert with a good streak of 1 and
`should_increase_difficulty`, the source's `adjust_difficulty` resets the
streak to 0 even though the level cannot step up, while the claim as stated
("if good ≥ 2 and current_difficulty < Expert then difficulty steps up one
level and good := 0") leaves the streak at 2: the claim's transition differs
from the code's on this input. -/
theorem adjust_difficulty_claim_counterexample :
    InterviewState.adjust_difficulty expertCapState increaseAnalysis
      ≠ adjust_difficulty_claimSpec expertCapState increaseAnalysis
    ∧ (InterviewState.adjust_difficulty expertCapState increaseAnalysis).consecutive_good_answers = 0
    ∧ (adjust_difficulty_claimSpec expertCapState increaseAnalysis).consecutive_good_answers = 2 := by
  refine ⟨?_, by decide, by decide⟩
  decide

/-- **C3, amended.**  `adjust_difficulty` implements exactly: if
`should_increase_difficulty` then `good := good+1`, `bad := 0`, and if the
new `good ≥ 2` then `good := 0` and, when `current_difficulty < Expert`,
the difficulty steps up one level; else if `should_simplify`, symmetrically
with `bad` and the Basic cap; otherwise both counters reset to 0. -/
theorem adjust_difficulty_matches_amended_spec
    (s : InterviewState) (analysis : ObserverAnalysis) :
    InterviewState.adjust_difficulty s analysis = adjust_difficulty_amendedSpec s analysis := by
  simp only [InterviewState.adjust_difficulty, adjust_difficulty_amendedSpec]
  split_ifs <;> rfl

/-- **C5, witness.**  The stop short-circuit at a concrete session state:
done, deactivated, no turn appended, no Interviewer call, and the Observer's
thoughts recorded on the tail turn. -/
theorem process_message_stop_short_circuit_witness :
    (process_message 10 stopState "стоп" (Except.ok stopAnalysis) (Except.error ())).done = true
    ∧ (process_message 10 stopState "стоп" (Except.ok stopAnalysis) (Except.error ())).state.is_active = false
    ∧ (process_message 10 stopState "стоп" (Except.ok stopAnalysis) (Except.error ())).state.turns.length = 1
    ∧ (process_message 10 stopState "стоп" (Except.ok stopAnalysis) (Except.error ())).interviewer_called
        = false
    ∧ ((process_message 10 stopState "стоп" (Except.ok stopAnalysis)
          (Except.error ())).state.turns.getLast?).map InterviewTurn.internal_thoughts
        = some stopAnalysis.thoughts := by
  obtain ⟨h1, _, h3, h4, _, h6, _, h8⟩ :=
    process_message_stop_short_circuit 10 stopState "стоп" stopAnalysis (Except.error ()) rfl rfl
  exact ⟨h1, h3, h4, h6, h8.trans rfl⟩

/-- `retryStep` keeps the result of the remaining loop. -/
theorem retryStep_result (mr a : Nat) (r : CompleteRun) :
    (retryStep mr a r).result = r.result := by
  unfold retryStep; split_ifs <;> rfl

/-- `retryStep` accounts exactly one more attempt. -/
theorem retryStep_attempts (mr a : Nat) (r : CompleteRun) :
    (retryStep mr a r).attempts = r.attempts + 1 := by
  unfold retryStep; split_ifs <;> rfl

/-- A sleep of `retryStep` is either the backoff of the current attempt
(possible only while retries remain) or a sleep of the remaining loop. -/
theorem retryStep_sleeps (mr a : Nat) (r : CompleteRun) (p : Nat × ℚ) :
    p ∈ (retryStep mr a r).sleeps →
    (p = (a, compute_retry_delay a) ∧ a < mr) ∨ p ∈ r.sleeps := by
  unfold retryStep
  split_ifs with hm
  · intro hp
    rcases List.mem_cons.mp hp with rfl | hp
    · exact Or.inl ⟨rfl, hm⟩
    · exact Or.inr hp
  · exact fun hp => Or.inr hp

/-- The retry loop never makes more attempts than it has iterations. -/
theorem completeAux_attempts_le (mr : Nat) (o : Nat → AttemptOutcome) :
    ∀ left attempt, (completeAux mr o attempt left).attempts ≤ left := by
  intro left
  induction left with
  | zero => intro attempt; simp [completeAux]
  | succ n ih =>
      intro attempt
      have h := ih (attempt + 1)
      cases ho : o attempt with
      | success c => simp [completeAux, ho]
      | httpStatus code body =>
          simp only [completeAux, ho]
          split_ifs <;> simp [retryStep_attempts] <;> omega
      | timeout => simp only [completeAux, ho]; simp [retryStep_attempts]; omega
      | requestError => simp only [completeAux, ho]; simp [retryStep_attempts]; omega
      | invalidShape msg => simp [completeAux, ho]

/-- Every sleep the retry loop performs belongs to a failed retryable attempt
that still had retries left, and its delay is `_compute_retry_delay` of that
attempt's index. -/
theorem completeAux_sleeps_spec (mr : Nat) (o : Nat → AttemptOutcome) :
    ∀ left attempt, ∀ p ∈ (completeAux mr o attempt left).sleeps,
      p.2 = compute_retry_delay p.1 ∧ (o p.1).isRetryable = true ∧ p.1 < mr := by
  intro left
  induction left with
  | zero => intro attempt p hp; simp [completeAux] at hp
  | succ n ih =>
      intro attempt p hp
      cases ho : o attempt with
      | success c => simp [completeAux, ho] at hp
      | invalidShape msg => simp [completeAux, ho] at hp
      | httpStatus code body =>
          simp only [completeAux, ho] at hp
          by_cases hc : code ∈ RETRYABLE_HTTP_CODES
          · rw [if_pos hc] at hp
            rcases retryStep_sleeps mr attempt _ p hp with ⟨rfl, hm⟩ | hp
            · exact ⟨rfl, by simp [ho, AttemptOutcome.isRetryable, hc], hm⟩
            · exact ih (attempt + 1) p hp
          · rw [if_neg hc] at hp; simp at hp
      | timeout =>
          simp only [completeAux, ho] at hp
          rcases retryStep_sleeps mr attempt _ p hp with ⟨rfl, hm⟩ | hp
          · exact ⟨rfl, by simp [ho, AttemptOutcome.isRetryable], hm⟩
          · exact ih (attempt + 1) p hp
      | requestError =>
          simp only [completeAux, ho] at hp
          rcases retryStep_sleeps mr attempt _ p hp with ⟨rfl, hm⟩ | hp
          · exact ⟨rfl, by simp [ho, AttemptOutcome.isRetryable], hm⟩
          · exact ih (attempt + 1) p hp

/-- If every attempt before `k` fails retryably and attempt `k` hits a
non-retryable HTTP status, the loop stops right there with the structured
HTTP error (status plus the body's first 500 characters). -/
theorem completeAux_nonretryable (mr : Nat) (o : Nat → AttemptOutcome)
    (code : Nat) (body : String) (hcode : code ∉ RETRYABLE_HTTP_CODES) :
    ∀ left attempt k, attempt ≤ k → k < attempt + left →
      (∀ j, attempt ≤ j → j < k → (o j).isRetryable = true) →
      o k = .httpStatus code body →
      (completeAux mr o attempt left).result = .error (.httpError code (body.take 500))
      ∧ (completeAux mr o attempt left).attempts + attempt = k + 1 := by
  intro left
  induction left with
  | zero => intro attempt k h1 h2 _ _; omega
  | succ n ih =>
      intro attempt k h1 h2 hall hk
      rcases Nat.eq_or_lt_of_le h1 with rfl | hlt
      · simp only [completeAux, hk, if_neg hcode]
        refine ⟨trivial, ?_⟩
        show 1 + attempt = attempt + 1
        omega
      · have hr : (o attempt).isRetryable = true := hall attempt (Nat.le_refl _) hlt
        have hrec := ih (attempt + 1) k hlt (by omega)
          (fun j hj1 hj2 => hall j (by omega) hj2) hk
        cases ho : o attempt with
        | success c => rw [ho] at hr; simp [AttemptOutcome.isRetryable] at hr
        | invalidShape msg => rw [ho] at hr; simp [AttemptOutcome.isRetryable] at hr
        | httpStatus c b =>
            rw [ho] at hr
            simp only [AttemptOutcome.isRetryable, decide_eq_true_eq] at hr
            simp only [completeAux, ho, if_pos hr, retryStep_result]
            refine ⟨hrec.1, ?_⟩
            rw [retryStep_attempts]
            omega
        | timeout =>
            simp only [completeAux, ho, retryStep_result]
            refine ⟨hrec.1, ?_⟩
            rw [retryStep_attempts]
            omega
        | requestError =>
            simp only [completeAux, ho, retryStep_result]
            refine ⟨hrec.1, ?_⟩
            rw [retryStep_attempts]
            omega

/-- If every attempt the loop can make fails retryably, the loop exhausts
all its iterations and ends with the max-retries error. -/
theorem completeAux_exhausted (mr : Nat) (o : Nat → AttemptOutcome) :
    ∀ left attempt, (∀ j, attempt ≤ j → j < attempt + left → (o j).isRetryable = true) →
      (completeAux mr o attempt left).result = .error .maxRetriesExceeded
      ∧ (completeAux mr o attempt left).attempts = left := by
  intro left
  induction left with
  | zero => intro attempt _; exact ⟨rfl, rfl⟩
  | succ n ih =>
      intro attempt hall
      have hr : (o attempt).isRetryable = true := hall attempt (Nat.le_refl _) (by omega)
      have hrec := ih (attempt + 1) (fun j hj1 hj2 => hall j (by omega) (by omega))
      cases ho : o attempt with
      | success c => rw [ho] at hr; simp [AttemptOutcome.isRetryable] at hr
      | invalidShape msg => rw [ho] at hr; simp [AttemptOutcome.isRetryable] at hr
      | httpStatus c b =>
          rw [ho] at hr
          simp only [AttemptOutcome.isRetryable, decide_eq_true_eq] at hr
          simp only [completeAux, ho, if_pos hr, retryStep_result, retryStep_attempts]
          exact ⟨hrec.1, by omega⟩
      | timeout =>
          simp only [completeAux, ho, retryStep_result, retryStep_attempts]
          exact ⟨hrec.1, by omega⟩
      | requestError =>
          simp only [completeAux, ho, retryStep_result, retryStep_attempts]
          exact ⟨hrec.1, by omega⟩

/-- **C7.**  For every configuration and every sequence of attempt outcomes,
`LLMClient.complete` (i) performs at most `max_retries + 1` attempts;
(ii) sleeps only after a failed retryable attempt (timeout, connection
error, HTTP 429/500/502/503/504) that still had retries left, and then
exactly `min(0.5 · 2^k, 30.0)` seconds — never more than 30; (iii) stops at
the first non-retryable HTTP status with an error carrying that status and
the body's first 500 characters; and (iv) errors out after exhausting all
`max_retries + 1` attempts on retryable failures. -/
theorem complete_retry_policy (max_retries : Nat) (oracle : Nat → AttemptOutcome) :
    (LLMClient.complete max_retries oracle).attempts ≤ max_retries + 1
    ∧ (∀ p ∈ (LLMClient.complete max_retries oracle).sleeps,
        p.2 = min ((1 / 2 : ℚ) * 2 ^ p.1) 30 ∧ p.2 ≤ 30
        ∧ (oracle p.1).isRetryable = true ∧ p.1 < max_retries)
    ∧ (∀ k code body, k ≤ max_retries →
        (∀ j, j < k → (oracle j).isRetryable = true) →
        oracle k = .httpStatus code body → code ∉ RETRYABLE_HTTP_CODES →
        (LLMClient.complete max_retries oracle).result =
            .error (.httpError code (body.take 500))
        ∧ (LLMClient.complete max_retries oracle).attempts = k + 1)
    ∧ ((∀ j, j ≤ max_retries → (oracle j).isRetryable = true) →
        (LLMClient.complete max_retries oracle).result = .error .maxRetriesExceeded
        ∧ (LLMClient.complete max_retries oracle).attempts = max_retries + 1) := by
  simp only [LLMClient.complete]
  refine ⟨completeAux_attempts_le max_retries oracle _ 0, ?_, ?_, ?_⟩
  · intro p hp
    obtain ⟨h1, h2, h3⟩ := completeAux_sleeps_spec max_retries oracle _ 0 p hp
    refine ⟨?_, ?_, h2, h3⟩
    · simpa [compute_retry_delay, RETRY_BACKOFF_BASE, RETRY_BACKOFF_MAX] using h1
    · rw [h1]
      exact min_le_right _ _
  · intro k code body hk hall hko hcode
    have h := completeAux_nonretryable max_retries oracle code body hcode
      (max_retries + 1) 0 k (Nat.zero_le _) (by omega)
      (fun j _ hj => hall j hj) hko
    exact ⟨h.1, by omega⟩
  · intro hall
    exact completeAux_exhausted max_retries oracle (max_retries + 1) 0
      (fun j _ hj => hall j (by omega))

/-- **C7, witness.**  With `max_retries = 5` and attempts going timeout,
HTTP 503, HTTP 404, the call stops at attempt 2 with the 404 error after
3 attempts, and both sleeps are the claimed backoff delays. -/
theorem complete_retry_policy_witness :
    (LLMClient.complete 5 witnessOracle).result =
        .error (.httpError 404 ("not found".take 500))
    ∧ (LLMClient.complete 5 witnessOracle).attempts = 3 := by
  exact (complete_retry_policy 5 witnessOracle).2.2.1 2 404 "not found"
    (by omega) (by decide) rfl (by decide)

/-- Once the capability flag is down, a whole run of `complete_json` calls
keeps it down and issues text-mode requests only. -/
theorem run_complete_json_calls_flag_down :
    ∀ calls : List JsonModeCall,
      (LLMClient.run_complete_json_calls false calls).1 = false
      ∧ ∀ m ∈ (LLMClient.run_complete_json_calls false calls).2, m = false
  | [] => ⟨rfl, by simp [LLMClient.run_complete_json_calls]⟩
  | call :: rest => by
      have ih := run_complete_json_calls_flag_down rest
      simp only [LLMClient.run_complete_json_calls, LLMClient.complete_json,
        if_neg (by simp : ¬(false = true))]
      refine ⟨ih.1, ?_⟩
      intro m hm
      simp only [List.mem_append, List.mem_singleton] at hm
      rcases hm with rfl | hm
      · rfl
      · exact ih.2 m hm

/-- **C8.**  The gateway's JSON-mode capability flag starts true; a
`complete_json` attempt failing with an error text that indicates an
unsupported response format flips it to false; the flag can only go from
true to false, never back; and with the flag down, `complete_json` goes
straight to text mode, issuing a single `json_mode=False` request — over
any sequence of subsequent calls, every issued request is text mode. -/
theorem json_mode_flag_policy :
    LLMClient.init_json_mode_supported = true
    ∧ (∀ (call : JsonModeCall) (e : String), call.probe = .error e →
        is_json_mode_unsupported_error e = true →
        (LLMClient.complete_json true call).flag = false)
    ∧ (∀ (flag : Bool) (call : JsonModeCall),
        (LLMClient.complete_json flag call).flag = true → flag = true)
    ∧ (∀ call : JsonModeCall,
        (LLMClient.complete_json false call).result = call.text
        ∧ (LLMClient.complete_json false call).requests = [false])
    ∧ (∀ calls : List JsonModeCall,
        (LLMClient.run_complete_json_calls false calls).1 = false
        ∧ ∀ m ∈ (LLMClient.run_complete_json_calls false calls).2, m = false) := by
  refine ⟨rfl, ?_, ?_, ?_, run_complete_json_calls_flag_down⟩
  · intro call e hprobe hunsupported
    simp [LLMClient.complete_json, hprobe, hunsupported]
  · intro flag call h
    cases flag with
    | true => rfl
    | false => simp [LLMClient.complete_json] at h
  · intro call
    exact ⟨rfl, rfl⟩

/-- **C8, witness.**  A probe rejected with an HTTP-400 `response_format`
body flips the flag at a concrete call. -/
theorem json_mode_flag_policy_witness :
    (LLMClient.complete_json true unsupportedCall).flag = false := by
  exact json_mode_flag_policy.2.1 unsupportedCall
    "HTTP error 400: response_format is not supported" rfl (by decide)

/-- **C2 (what the code actually does).**  Claim C2 says `_parse_analysis`
derives `answered_last_question` (false under `is_gibberish`, else the LM's
boolean, else the `UNANSWERED_RESPONSE_TYPES` fallback).  In the source no
such derivation exists: every analysis `_parse_analysis` successfully
returns has `answered_last_question = true` (the pydantic default),
whatever the payload's `is_gibberish` and `answered_last_question` fields
say — the schema module's documented fallback set is used nowhere. -/
theorem parse_analysis_answered_always_true
    (r : List (String × Json)) (user_message : String) (a : ObserverAnalysis)
    (h : parse_analysis r user_message = .ok a) :
    a.answered_last_question = true := by
  unfold parse_analysis at h
  split at h
  · cases h; rfl
  · cases h

/-- **C2, witness.**  On the gibberish payload (`is_gibberish = true`,
`answered_last_question = false` from the LM), `_parse_analysis` still
returns `answered_last_question = true` — where the claim requires false. -/
theorem parse_analysis_answered_always_true_witness :
    gibberishAnalysis.answered_last_question = true :=
  parse_analysis_answered_always_true gibberishRecord "йцвйцв" gibberishAnalysis (by rfl)

/-- **C10.**  The Observer's `process` is total in its error handling: for
every LM-call outcome — gateway/transport error or a payload its parser
rejects — it returns `_create_fallback_analysis` instead of raising; and
the fallback analysis classifies a message containing a stop token
(substring match on the lower-cased message) as StopCommand, otherwise a
message containing "?" as Question, and anything else as Normal — always
with quality Acceptable, `is_factually_correct = true` and no detected
topics. -/
theorem observer_process_total_fallback :
    (∀ (e : Unit) (msg : String),
      observer_process (.error e) msg = create_fallback_analysis msg)
    ∧ (∀ (r : List (String × Json)) (msg : String),
        (parse_analysis r msg).isOk = false →
        observer_process (.ok r) msg = create_fallback_analysis msg)
    ∧ (∀ msg : String,
        ((∃ cmd ∈ STOP_COMMAND_MARKERS, pyInS cmd (pyLowerS msg) = true) →
          (create_fallback_analysis msg).response_type = .stop_command)
        ∧ ((∀ cmd ∈ STOP_COMMAND_MARKERS, pyInS cmd (pyLowerS msg) = false) →
            pyInS "?" msg = true →
            (create_fallback_analysis msg).response_type = .question)
        ∧ ((∀ cmd ∈ STOP_COMMAND_MARKERS, pyInS cmd (pyLowerS msg) = false) →
            pyInS "?" msg = false →
            (create_fallback_analysis msg).response_type = .normal)
        ∧ (create_fallback_analysis msg).quality = .acceptable
        ∧ (create_fallback_analysis msg).is_factually_correct = true
        ∧ (create_fallback_analysis msg).detected_topics = []) := by
  refine ⟨fun e msg => rfl, ?_, ?_⟩
  · intro r msg h
    unfold observer_process
    cases hp : parse_analysis r msg with
    | ok a => rw [hp] at h; simp [Except.isOk, Except.toBool] at h
    | error e => simp [hp]
  · intro msg
    refine ⟨?_, ?_, ?_, rfl, rfl, rfl⟩
    · intro ⟨cmd, hmem, hin⟩
      have hany : STOP_COMMAND_MARKERS.any (fun cmd => pyInS cmd (pyLowerS msg)) = true :=
        List.any_eq_true.mpr ⟨cmd, hmem, hin⟩
      simp [create_fallback_analysis, hany]
    · intro hall hq
      have hany : STOP_COMMAND_MARKERS.any (fun cmd => pyInS cmd (pyLowerS msg)) = false := by
        simp only [List.any_eq_false]
        intro cmd hmem
        simp [hall cmd hmem]
      simp [create_fallback_analysis, hany, hq]
    · intro hall hq
      have hany : STOP_COMMAND_MARKERS.any (fun cmd => pyInS cmd (pyLowerS msg)) = false := by
        simp only [List.any_eq_false]
        intro cmd hmem
        simp [hall cmd hmem]
      simp [create_fallback_analysis, hany, hq]

/-- **C10, witness.**  A failing LM call over the message `"стоп"` yields
the fallback analysis, classified as a stop command. -/
theorem observer_process_total_fallback_witness :
    observer_process (Except.error ()) "стоп" = create_fallback_analysis "стоп"
    ∧ (create_fallback_analysis "стоп").response_type = ResponseType.stop_command :=
  ⟨observer_process_total_fallback.1 () "стоп",
   (observer_process_total_fallback.2.2 "стоп").1 ⟨"стоп", by decide, by decide⟩⟩

/-- **C9, counterexample.**  `{"verdict": null}` is *not* treated like a
record without `"verdict"`: the null makes `_parse_feedback` raise, so
`process` answers with the fallback feedback (confidence 30, error
comment), while the missing key yields the section defaults (Junior,
No Hire, confidence 50) — two different feedbacks. -/
theorem null_verdict_counterexample :
    evaluator_process {} (.ok [("verdict", Json.null)]) ≠ evaluator_process {} (.ok [])
    ∧ (evaluator_process {} (.ok [("verdict", Json.null)])).verdict.confidence_score = 30
    ∧ (evaluator_process {} (.ok [])).verdict.confidence_score = 50 := by
  refine ⟨?_, rfl, rfl⟩
  intro h
  have h2 := congrArg (fun fb => fb.verdict.confidence_score) h
  exact absurd h2 (by decide)

/-- **C9, amended.**  Feedback parsing never propagates an exception, but a
null nested object is *not* treated as a missing one: for every payload
with `"verdict": null`, `_parse_feedback` fails and `process` returns the
fallback feedback, whereas for every payload without a `"verdict"` key that
parses, the verdict is the defaults (Junior, No Hire, confidence 50). -/
theorem null_verdict_amended :
    (∀ (r : List (String × Json)) (state : InterviewState),
      jsonGet r "verdict" = some Json.null →
      parse_feedback r state = .error ()
      ∧ evaluator_process state (.ok r) = create_fallback_feedback state)
    ∧ (∀ (r : List (String × Json)) (state : InterviewState) (fb : InterviewFeedback),
      jsonGet r "verdict" = none →
      parse_feedback r state = .ok fb →
      fb.verdict = { grade := .junior, hiring_recommendation := .no_hire,
                     confidence_score := 50 }) := by
  constructor
  · intro r state h
    have hv : parse_verdict_section r = .error () := by
      simp [parse_verdict_section, h]
    have hpf : parse_feedback r state = .error () := by
      simp [parse_feedback, hv]
    exact ⟨hpf, by simp [evaluator_process, hpf]⟩
  · intro r state fb h hok
    have hv : parse_verdict_section r =
        Except.ok { grade := AssessedGrade.junior,
                    hiring_recommendation := HiringRecommendation.no_hire,
                    confidence_score := (50 : Int) } := by
      unfold parse_verdict_section
      rw [h]
      rfl
    unfold parse_feedback at hok
    rw [hv] at hok
    split at hok
    · cases hok
      rename_i heq _ _ _ _
      cases heq
      rfl
    · cases hok

/-- **C9 amended, witness.**  The null-verdict payload at a concrete state. -/
theorem null_verdict_amended_witness :
    parse_feedback [("verdict", Json.null)] {} = .error ()
    ∧ evaluator_process {} (.ok [("verdict", Json.null)]) = create_fallback_feedback {} :=
  null_verdict_amended.1 [("verdict", Json.null)] {} (by rfl)

/-! ### Round trip of the serializer and the parser: digits -/

/-- `digitChar` of a value below ten is an ASCII digit. -/
theorem isDigitChar_digitChar (k : Nat) (h : k < 10) : isDigitChar (digitChar k) = true := by
  interval_cases k <;> decide

/-- `digitChar` below ten decodes back to `48 + k`. -/
theorem digitChar_toNat (k : Nat) (h : k < 10) : (digitChar k).toNat = 48 + k := by
  interval_cases k <;> decide

/-- Every character `natDigitsAux` emits is an ASCII digit. -/
theorem isDigitChar_of_mem_natDigitsAux :
    ∀ fuel n c, c ∈ natDigitsAux fuel n → isDigitChar c = true
  | 0, n, c, hc => by
    simp only [natDigitsAux, List.mem_singleton] at hc
    exact hc ▸ isDigitChar_digitChar _ (Nat.mod_lt n (by omega))
  | fuel + 1, n, c, hc => by
    by_cases h : n < 10
    · simp only [natDigitsAux, if_pos h, List.mem_singleton] at hc
      exact hc ▸ isDigitChar_digitChar _ h
    · simp only [natDigitsAux, if_neg h, List.mem_append, List.mem_singleton] at hc
      rcases hc with hc | hc
      · exact isDigitChar_of_mem_natDigitsAux fuel (n / 10) c hc
      · exact hc ▸ isDigitChar_digitChar _ (Nat.mod_lt n (by omega))

/-- `natDigitsAux` never returns the empty list. -/
theorem natDigitsAux_ne_nil : ∀ fuel n, natDigitsAux fuel n ≠ []
  | 0, _ => by simp [natDigitsAux]
  | fuel + 1, n => by
    by_cases h : n < 10 <;> simp [natDigitsAux, h]

/-- Appending one digit multiplies the value by ten and adds it. -/
theorem digitsToNat_append_single (ds : List Char) (c : Char) :
    digitsToNat (ds ++ [c]) = digitsToNat ds * 10 + (c.toNat - 48) := by
  simp [digitsToNat, List.foldl_append]

/-- With enough fuel, `natDigitsAux` is a section of `digitsToNat`. -/
theorem digitsToNat_natDigitsAux : ∀ fuel n, n ≤ fuel → digitsToNat (natDigitsAux fuel n) = n
  | 0, n, h => by
    interval_cases n
    decide
  | fuel + 1, n, h => by
    by_cases h10 : n < 10
    · simp only [natDigitsAux, if_pos h10]
      simp [digitsToNat, digitChar_toNat n h10]
    · have hdle : n / 10 ≤ fuel := by
        have hlt : n / 10 < n := Nat.div_lt_self (by omega) (by omega)
        omega
      simp only [natDigitsAux, if_neg h10, digitsToNat_append_single,
        digitsToNat_natDigitsAux fuel (n / 10) hdle,
        digitChar_toNat (n % 10) (Nat.mod_lt n (by omega))]
      omega

/-- `digitsToNat` inverts `natDigits`. -/
theorem digitsToNat_natDigits (n : Nat) : digitsToNat (natDigits n) = n :=
  digitsToNat_natDigitsAux n n (Nat.le_refl n)

/-- Splitting the digit run off a digit string followed by a non-digit. -/
theorem takeDigitRun_append : ∀ ds rest : List Char,
    (∀ c ∈ ds, isDigitChar c = true) → noDigitHead rest = true →
    takeDigitRun (ds ++ rest) = (ds, rest)
  | [], rest, _, hr => by
    cases rest with
    | nil => rfl
    | cons c r =>
      have hc : isDigitChar c = false := by simpa [noDigitHead] using hr
      simp [takeDigitRun, hc]
  | d :: ds, rest, hds, hr => by
    have hd : isDigitChar d = true := hds d (by simp)
    simp [takeDigitRun, hd,
      takeDigitRun_append ds rest (fun c hc => hds c (by simp [hc])) hr]

/-! ### Round trip: string escapes -/

/-- `hexDigitVal` inverts `hexDigitChar` below 16. -/
theorem hexDigitVal_hexDigitChar (k : Nat) (h : k < 16) :
    hexDigitVal (hexDigitChar k) = some k := by
  interval_cases k <;> decide

/-- `parseStringBody` on an explicit `\uXXXX` escape. -/
theorem parseStringBody_u (h1 h2 h3 h4 : Char) (a b k d : Nat) (X : List Char)
    (e1 : hexDigitVal h1 = some a) (e2 : hexDigitVal h2 = some b)
    (e3 : hexDigitVal h3 = some k) (e4 : hexDigitVal h4 = some d) :
    parseStringBody ('\\' :: 'u' :: h1 :: h2 :: h3 :: h4 :: X) =
      (parseStringBody X).map
        (fun p => (Char.ofNat (((a * 16 + b) * 16 + k) * 16 + d) :: p.1, p.2)) := by
  show (match hexDigitVal h1, hexDigitVal h2, hexDigitVal h3, hexDigitVal h4 with
        | some a, some b, some c, some d =>
          (parseStringBody X).map
            (fun p : List Char × List Char =>
              (Char.ofNat (((a * 16 + b) * 16 + c) * 16 + d) :: p.1, p.2))
        | _, _, _, _ => none) = _
  rw [e1, e2, e3, e4]

/-- `parseStringBody` on an ordinary (unescaped, non-control) character. -/
theorem parseStringBody_plain (c : Char) (X : List Char)
    (h1 : c ≠ '"') (h2 : c ≠ '\\') (h3 : ¬c.toNat < 0x20) :
    parseStringBody (c :: X) =
      (parseStringBody X).map (fun p => (c :: p.1, p.2)) := by
  rw [parseStringBody.eq_def]
  split <;> simp_all

/-- One escaped character re-parses to the character it encodes. -/
theorem parseStringBody_escapeChar (c : Char) (X : List Char) :
    parseStringBody (escapeChar c ++ X) =
      (parseStringBody X).map (fun p => (c :: p.1, p.2)) := by
  by_cases h1 : c = '"'
  · subst h1; rfl
  by_cases h2 : c = '\\'
  · subst h2; rfl
  by_cases h3 : c = '\n'
  · subst h3; rfl
  by_cases h4 : c = '\r'
  · subst h4; rfl
  by_cases h5 : c = '\t'
  · subst h5; rfl
  by_cases h6 : c = '\x08'
  · subst h6; rfl
  by_cases h7 : c = '\x0c'
  · subst h7; rfl
  by_cases h8 : c.toNat < 0x20
  · have hdiv : c.toNat / 16 < 16 := by omega
    have hmod : c.toNat % 16 < 16 := by omega
    simp only [escapeChar, if_neg h1, if_neg h2, if_neg h3, if_neg h4,
      if_neg h5, if_neg h6, if_neg h7, if_pos h8, List.cons_append, List.nil_append]
    rw [parseStringBody_u '0' '0' (hexDigitChar (c.toNat / 16)) (hexDigitChar (c.toNat % 16))
      0 0 (c.toNat / 16) (c.toNat % 16) X (by decide) (by decide)
      (hexDigitVal_hexDigitChar _ hdiv) (hexDigitVal_hexDigitChar _ hmod)]
    have hc : Char.ofNat (((0 * 16 + 0) * 16 + c.toNat / 16) * 16 + c.toNat % 16) = c := by
      have harith : ((0 * 16 + 0) * 16 + c.toNat / 16) * 16 + c.toNat % 16 = c.toNat := by
        omega
      rw [harith, Char.ofNat_toNat]
    rw [hc]
  · simp only [escapeChar, if_neg h1, if_neg h2, if_neg h3, if_neg h4,
      if_neg h5, if_neg h6, if_neg h7, if_neg h8, List.cons_append, List.nil_append]
    exact parseStringBody_plain c X h1 h2 h8

/-- An escaped string body followed by the closing quote re-parses to the
original characters. -/
theorem parseStringBody_escapeStr :
    ∀ cs X : List Char, parseStringBody (escapeStr cs ++ ('"' :: X)) = some (cs, X)
  | [], X => rfl
  | c :: cs, X => by
    have hstep := parseStringBody_escapeChar c (escapeStr cs ++ ('"' :: X))
    have htail := parseStringBody_escapeStr cs X
    show parseStringBody ((escapeChar c ++ escapeStr cs) ++ ('"' :: X)) = _
    rw [List.append_assoc, hstep, htail]
    rfl

/-! ### Round trip: values -/

/-- A leading non-whitespace character survives `skipJsonWs`. -/
theorem skipJsonWs_cons (c : Char) (X : List Char) (h : isJsonWs c = false) :
    skipJsonWs (c :: X) = c :: X := by
  simp [skipJsonWs, h]

/-- `skipJsonWs` drops a leading whitespace character. -/
theorem skipJsonWs_cons_ws (c : Char) (X : List Char) (h : isJsonWs c = true) :
    skipJsonWs (c :: X) = skipJsonWs X := by
  simp [skipJsonWs, h]

/-- One unfolding of `parseValue` at `null`. -/
theorem parseValue_null (f : Nat) (X : List Char) :
    parseValue (f + 1) ('n' :: 'u' :: 'l' :: 'l' :: X) = some (.null, X) := rfl

/-- One unfolding of `parseValue` at `true`. -/
theorem parseValue_true (f : Nat) (X : List Char) :
    parseValue (f + 1) ('t' :: 'r' :: 'u' :: 'e' :: X) = some (.bool true, X) := rfl

/-- One unfolding of `parseValue` at `false`. -/
theorem parseValue_false (f : Nat) (X : List Char) :
    parseValue (f + 1) ('f' :: 'a' :: 'l' :: 's' :: 'e' :: X) = some (.bool false, X) := rfl

/-- One unfolding of `parseValue` at an opening quote. -/
theorem parseValue_quote (f : Nat) (X : List Char) :
    parseValue (f + 1) ('"' :: X) =
      (parseStringBody X).map
        (fun p : List Char × List Char => (Json.str p.1.asString, p.2)) := rfl

/-- One unfolding of `parseValue` at an opening brace. -/
theorem parseValue_lbrace (f : Nat) (X : List Char) :
    parseValue (f + 1) ('{' :: X) =
      (match skipJsonWs X with
       | '}' :: r2 => some (.obj [], r2)
       | r2 =>
         (parseMembers f r2).map
           (fun p : List (String × Json) × List Char => (Json.obj p.1, p.2))) := rfl

/-- One unfolding of `parseValue` at an opening bracket. -/
theorem parseValue_lbrack (f : Nat) (X : List Char) :
    parseValue (f + 1) ('[' :: X) =
      (match skipJsonWs X with
       | ']' :: r2 => some (.arr [], r2)
       | r2 =>
         (parseItems f r2).map
           (fun p : List Json × List Char => (Json.arr p.1, p.2))) := rfl

/-- One unfolding of `parseValue` at a minus sign. -/
theorem parseValue_minus (f : Nat) (X : List Char) :
    parseValue (f + 1) ('-' :: X) =
      (match takeDigitRun X with
       | ([], _) => none
       | (ds, r) => some (.num (-(digitsToNat ds : Int)), r)) := rfl

/-- One unfolding of `parseValue` at a leading digit. -/
theorem parseValue_digit (f : Nat) (c : Char) (X ds r : List Char)
    (h : isDigitChar c = true) (htdr : takeDigitRun (c :: X) = (ds, r)) :
    parseValue (f + 1) (c :: X) = some (.num (digitsToNat ds), r) := by
  have hn : c ≠ 'n' := fun h' => by subst h'; exact absurd h (by decide)
  have ht : c ≠ 't' := fun h' => by subst h'; exact absurd h (by decide)
  have hf : c ≠ 'f' := fun h' => by subst h'; exact absurd h (by decide)
  have hq : c ≠ '"' := fun h' => by subst h'; exact absurd h (by decide)
  have hb : c ≠ '{' := fun h' => by subst h'; exact absurd h (by decide)
  have hk : c ≠ '[' := fun h' => by subst h'; exact absurd h (by decide)
  have hm : c ≠ '-' := fun h' => by subst h'; exact absurd h (by decide)
  rw [parseValue.eq_def]
  split <;> simp_all

/-- Digit characters are not whitespace and not closing brackets. -/
theorem digit_head_facts (c : Char) (h : isDigitChar c = true) :
    isJsonWs c = false ∧ c ≠ ']' ∧ c ≠ '}' := by
  have hb : 48 ≤ c.toNat ∧ c.toNat ≤ 57 := by simpa [isDigitChar] using h
  refine ⟨?_, ?_, ?_⟩
  · have h1 : c ≠ ' ' := fun h' => by subst h'; exact absurd hb (by decide)
    have h2 : c ≠ '\t' := fun h' => by subst h'; exact absurd hb (by decide)
    have h3 : c ≠ '\n' := fun h' => by subst h'; exact absurd hb (by decide)
    have h4 : c ≠ '\r' := fun h' => by subst h'; exact absurd hb (by decide)
    simp [isJsonWs, h1, h2, h3, h4]
  · exact fun h' => by subst h'; exact absurd hb (by decide)
  · exact fun h' => by subst h'; exact absurd hb (by decide)

/-- `dumpsVal` always begins with a character that is neither JSON
whitespace nor a closing bracket. -/
theorem dumpsVal_cons (j : Json) :
    ∃ c X, dumpsVal j = c :: X ∧ isJsonWs c = false ∧ c ≠ ']' ∧ c ≠ '}' := by
  cases j with
  | null => exact ⟨'n', _, rfl, by decide⟩
  | bool b =>
    cases b with
    | true => exact ⟨'t', _, rfl, by decide⟩
    | false => exact ⟨'f', _, rfl, by decide⟩
  | num i =>
    by_cases hneg : i < 0
    · refine ⟨'-', natDigits i.natAbs, ?_, by decide⟩
      simp [dumpsVal, intChars, hneg]
    · rcases hnd : natDigits i.natAbs with _ | ⟨c, X⟩
      · exact absurd hnd (natDigitsAux_ne_nil _ _)
      · have hmem : c ∈ natDigitsAux i.natAbs i.natAbs := by
          have : c ∈ natDigits i.natAbs := by rw [hnd]; simp
          simpa [natDigits] using this
        have hc : isDigitChar c = true := isDigitChar_of_mem_natDigitsAux _ _ c hmem
        obtain ⟨f1, f2, f3⟩ := digit_head_facts c hc
        exact ⟨c, X, by simp [dumpsVal, intChars, hneg, hnd], f1, f2, f3⟩
  | str s => exact ⟨'"', _, rfl, by decide⟩
  | arr items => exact ⟨'[', _, rfl, by decide⟩
  | obj members => exact ⟨'{', _, rfl, by decide⟩

/-- A serialized value is never empty. -/
theorem dumpsVal_length_pos (j : Json) : 1 ≤ (dumpsVal j).length := by
  obtain ⟨c, X, hcx, -, -, -⟩ := dumpsVal_cons j
  rw [hcx]
  simp

/-- The bracket branch of `parseValue` when the body is nonempty. -/
theorem parseValue_lbrack_go (f : Nat) (c : Char) (X : List Char)
    (hw : isJsonWs c = false) (hne : c ≠ ']') :
    parseValue (f + 1) ('[' :: c :: X) =
      (parseItems f (c :: X)).map
        (fun p : List Json × List Char => (Json.arr p.1, p.2)) := by
  rw [parseValue_lbrack, skipJsonWs_cons c X hw]
  split
  · simp_all
  · rfl

/-- The brace branch of `parseValue` when the body is nonempty. -/
theorem parseValue_lbrace_go (f : Nat) (c : Char) (X : List Char)
    (hw : isJsonWs c = false) (hne : c ≠ '}') :
    parseValue (f + 1) ('{' :: c :: X) =
      (parseMembers f (c :: X)).map
        (fun p : List (String × Json) × List Char => (Json.obj p.1, p.2)) := by
  rw [parseValue_lbrace, skipJsonWs_cons c X hw]
  split
  · simp_all
  · rfl

/-- One unfolding of `parseItems`. -/
theorem parseItems_succ (f : Nat) (cs : List Char) :
    parseItems (f + 1) cs =
      (match parseValue f cs with
       | some (v, r1) =>
         (match skipJsonWs r1 with
          | ',' :: r2 =>
            (parseItems f (skipJsonWs r2)).map
              (fun p : List Json × List Char => (v :: p.1, p.2))
          | ']' :: r2 => some ([v], r2)
          | _ => none)
       | none => none) := rfl

/-- One unfolding of `parseMembers` at an opening quote. -/
theorem parseMembers_succ (f : Nat) (X : List Char) :
    parseMembers (f + 1) ('"' :: X) =
      (match parseStringBody X with
       | some (key, r1) =>
         (match skipJsonWs r1 with
          | ':' :: r2 =>
            (match parseValue f (skipJsonWs r2) with
             | some (v, r3) =>
               (match skipJsonWs r3 with
                | ',' :: r4 =>
                  (parseMembers f (skipJsonWs r4)).map
                    (fun p : List (String × Json) × List Char =>
                      ((key.asString, v) :: p.1, p.2))
                | '}' :: r4 => some ([(key.asString, v)], r4)
                | _ => none)
             | none => none)
          | _ => none)
       | none => none) := rfl

/-- The separator-prefixed tail of a nonempty element list. -/
theorem dumpsItemsTail_ne_nil (js : List Json) (h : js ≠ []) :
    dumpsItemsTail js = ',' :: ' ' :: dumpsItems js := by
  cases js with
  | nil => exact absurd rfl h
  | cons v t => rfl

/-- The separator-prefixed tail of a nonempty member list. -/
theorem dumpsMembersTail_ne_nil (ms : List (String × Json)) (h : ms ≠ []) :
    dumpsMembersTail ms = ',' :: ' ' :: dumpsMembers ms := by
  cases ms with
  | nil => exact absurd rfl h
  | cons m t => rfl

/-- The fuel-indexed round trip: a serialized value, element list or member
list re-parses to itself (with the trailing text untouched) once the fuel
exceeds the serialization's length. -/
theorem parse_dumps_roundTrip : ∀ fuel : Nat,
    (∀ (j : Json) (rest : List Char), (dumpsVal j).length < fuel →
      noDigitHead rest = true →
      parseValue fuel (dumpsVal j ++ rest) = some (j, rest)) ∧
    (∀ (js : List Json) (rest : List Char), js ≠ [] →
      (dumpsItems js).length + 1 < fuel →
      parseItems fuel (dumpsItems js ++ (']' :: rest)) = some (js, rest)) ∧
    (∀ (ms : List (String × Json)) (rest : List Char), ms ≠ [] →
      (dumpsMembers ms).length + 1 < fuel →
      parseMembers fuel (dumpsMembers ms ++ ('}' :: rest)) = some (ms, rest)) := by
  intro fuel
  induction fuel with
  | zero =>
    exact ⟨fun j rest h _ => absurd h (by omega),
           fun js rest _ h => absurd h (by omega),
           fun ms rest _ h => absurd h (by omega)⟩
  | succ f ih =>
    obtain ⟨ihv, ihi, ihm⟩ := ih
    refine ⟨?_, ?_, ?_⟩
    · intro j rest hlen hnd
      cases j with
      | null => exact parseValue_null f rest
      | bool b =>
        cases b with
        | false => exact parseValue_false f rest
        | true => exact parseValue_true f rest
      | num i =>
        have hdig : ∀ c' ∈ natDigits i.natAbs, isDigitChar c' = true := fun c' hc' =>
          isDigitChar_of_mem_natDigitsAux _ _ c' (by simpa [natDigits] using hc')
        have htdr : takeDigitRun (natDigits i.natAbs ++ rest) = (natDigits i.natAbs, rest) :=
          takeDigitRun_append _ _ hdig hnd
        have hval : digitsToNat (natDigits i.natAbs) = i.natAbs := digitsToNat_natDigits _
        rcases hnd' : natDigits i.natAbs with _ | ⟨c, ds⟩
        · exact absurd hnd' (natDigitsAux_ne_nil _ _)
        · rw [hnd'] at htdr hval
          by_cases hneg : i < 0
          · have hshape : dumpsVal (Json.num i) ++ rest =
                '-' :: ((c :: ds) ++ rest) := by
              simp [dumpsVal, intChars, hneg, hnd']
            rw [List.cons_append] at htdr
            rw [hshape, parseValue_minus, List.cons_append, htdr]
            show some (Json.num (-(digitsToNat (c :: ds) : Int)), rest) =
              some (Json.num i, rest)
            rw [hval, show (-(i.natAbs : Int)) = i by omega]
          · have hshape : dumpsVal (Json.num i) ++ rest = c :: (ds ++ rest) := by
              simp [dumpsVal, intChars, hneg, hnd']
            have hc : isDigitChar c = true := hdig c (by rw [hnd']; simp)
            rw [hshape,
              parseValue_digit f c (ds ++ rest) (c :: ds) rest hc (by
                rw [← List.cons_append]; exact htdr)]
            rw [hval, show ((i.natAbs : Int)) = i by omega]
      | str s =>
        have hshape : dumpsVal (Json.str s) ++ rest =
            '"' :: (escapeStr s.toList ++ ('"' :: rest)) := by
          simp [dumpsVal]
        rw [hshape, parseValue_quote, parseStringBody_escapeStr]
        rfl
      | arr items =>
        cases items with
        | nil =>
          rw [show dumpsVal (Json.arr []) ++ rest = '[' :: (']' :: rest) from rfl,
            parseValue_lbrack, skipJsonWs_cons _ _ (by decide)]
          rfl
        | cons v t =>
          obtain ⟨c, X, hcx, hws, hrb, -⟩ := dumpsVal_cons v
          have hshape : dumpsVal (Json.arr (v :: t)) ++ rest =
              '[' :: c :: (X ++ (dumpsItemsTail t ++ (']' :: rest))) := by
            simp [dumpsVal, dumpsItems, hcx]
          have hlist : c :: (X ++ (dumpsItemsTail t ++ (']' :: rest))) =
              dumpsItems (v :: t) ++ (']' :: rest) := by
            simp [dumpsItems, hcx]
          have hfuel : (dumpsItems (v :: t)).length + 1 < f := by
            have : (dumpsVal (Json.arr (v :: t))).length =
                (dumpsItems (v :: t)).length + 2 := by
              simp [dumpsVal]
            omega
          rw [hshape, parseValue_lbrack_go f c _ hws hrb, hlist,
            ihi (v :: t) rest (by simp) hfuel]
          rfl
      | obj members =>
        cases members with
        | nil =>
          rw [show dumpsVal (Json.obj []) ++ rest = '{' :: ('}' :: rest) from rfl,
            parseValue_lbrace, skipJsonWs_cons _ _ (by decide)]
          rfl
        | cons m t =>
          obtain ⟨k, v⟩ := m
          have hshape : dumpsVal (Json.obj ((k, v) :: t)) ++ rest =
              '{' :: '"' :: ((escapeStr k.toList ++
                ('"' :: ':' :: ' ' :: (dumpsVal v ++ (dumpsMembersTail t ++ ('}' :: rest)))))) := by
            simp [dumpsVal, dumpsMembers]
          have hlist : ('"' : Char) :: (escapeStr k.toList ++
              ('"' :: ':' :: ' ' :: (dumpsVal v ++ (dumpsMembersTail t ++ ('}' :: rest))))) =
              dumpsMembers ((k, v) :: t) ++ ('}' :: rest) := by
            simp [dumpsMembers]
          have hfuel : (dumpsMembers ((k, v) :: t)).length + 1 < f := by
            have : (dumpsVal (Json.obj ((k, v) :: t))).length =
                (dumpsMembers ((k, v) :: t)).length + 2 := by
              simp [dumpsVal]
            omega
          rw [hshape, parseValue_lbrace_go f '"' _ (by decide) (by decide), hlist,
            ihm ((k, v) :: t) rest (by simp) hfuel]
          rfl
    · intro js rest hne hfuel
      cases js with
      | nil => exact absurd rfl hne
      | cons v t =>
        have harith : (dumpsVal v).length + (dumpsItemsTail t).length + 1 < f + 1 := by
          simpa [dumpsItems] using hfuel
      
        have hshape : dumpsItems (v :: t) ++ (']' :: rest) =
            dumpsVal v ++ (dumpsItemsTail t ++ (']' :: rest)) := by
          simp [dumpsItems]
        rw [parseItems_succ, hshape,
          ihv v (dumpsItemsTail t ++ (']' :: rest)) (by omega)
            (by cases t <;> rfl)]
        cases t with
        | nil => rfl
        | cons w t2 =>
          obtain ⟨cw, Xw, hcw, hwsw, -, -⟩ := dumpsVal_cons w
          have hwlen : (dumpsItemsTail (w :: t2)).length =
              (dumpsItems (w :: t2)).length + 2 := by
            simp [dumpsItemsTail, dumpsItems]
          have hvpos := dumpsVal_length_pos v
          have hfuel2 : (dumpsItems (w :: t2)).length + 1 < f := by omega
          have hskip : skipJsonWs (dumpsItems (w :: t2) ++ (']' :: rest)) =
              dumpsItems (w :: t2) ++ (']' :: rest) := by
            rw [show dumpsItems (w :: t2) ++ (']' :: rest) =
              cw :: (Xw ++ (dumpsItemsTail t2 ++ (']' :: rest))) from by
                simp [dumpsItems, hcw]]
            rw [skipJsonWs_cons _ _ hwsw]
          show (match skipJsonWs (',' :: ' ' :: (dumpsItems (w :: t2) ++ (']' :: rest))) with
                | ',' :: r2 =>
                  (parseItems f (skipJsonWs r2)).map
                    (fun p : List Json × List Char => (v :: p.1, p.2))
                | ']' :: r2 => some ([v], r2)
                | _ => none) = some (v :: w :: t2, rest)
        
          rw [skipJsonWs_cons _ _ (by decide)]
          show (parseItems f (skipJsonWs (' ' :: (dumpsItems (w :: t2) ++ (']' :: rest))))).map
              (fun p : List Json × List Char => (v :: p.1, p.2)) = some (v :: w :: t2, rest)
          rw [skipJsonWs_cons_ws _ _ (by decide), hskip,
            ihi (w :: t2) rest (by simp) hfuel2]
          rfl
    · intro ms rest hne hfuel
      cases ms with
      | nil => exact absurd rfl hne
      | cons m t =>
        obtain ⟨k, v⟩ := m
        have harith : (dumpsMembers ((k, v) :: t)).length =
            (escapeStr k.toList).length + (dumpsVal v).length +
              (dumpsMembersTail t).length + 4 := by
          simp [dumpsMembers]
          omega
        have hvpos := dumpsVal_length_pos v
        have hshape : dumpsMembers ((k, v) :: t) ++ ('}' :: rest) =
            '"' :: (escapeStr k.toList ++
              ('"' :: (':' :: ' ' :: (dumpsVal v ++ (dumpsMembersTail t ++ ('}' :: rest)))))) := by
          simp [dumpsMembers]
        rw [hshape, parseMembers_succ, parseStringBody_escapeStr]
        obtain ⟨cv, Xv, hcv, hwsv, -, -⟩ := dumpsVal_cons v
        show (match skipJsonWs (':' :: ' ' :: (dumpsVal v ++ (dumpsMembersTail t ++ ('}' :: rest)))) with
              | ':' :: r2 =>
                (match parseValue f (skipJsonWs r2) with
                 | some (v', r3) =>
                   (match skipJsonWs r3 with
                    | ',' :: r4 =>
                      (parseMembers f (skipJsonWs r4)).map
                        (fun p : List (String × Json) × List Char =>
                          ((k.toList.asString, v') :: p.1, p.2))
                    | '}' :: r4 => some ([(k.toList.asString, v')], r4)
                    | _ => none)
                 | none => none)
              | _ => none) = some ((k, v) :: t, rest)
        rw [skipJsonWs_cons _ _ (by decide)]
        show (match parseValue f (skipJsonWs (' ' :: (dumpsVal v ++ (dumpsMembersTail t ++ ('}' :: rest))))) with
              | some (v', r3) =>
                (match skipJsonWs r3 with
                 | ',' :: r4 =>
                   (parseMembers f (skipJsonWs r4)).map
                     (fun p : List (String × Json) × List Char =>
                       ((k.toList.asString, v') :: p.1, p.2))
                 | '}' :: r4 => some ([(k.toList.asString, v')], r4)
                 | _ => none)
              | none => none) = some ((k, v) :: t, rest)
        have hskipv : skipJsonWs (' ' :: (dumpsVal v ++ (dumpsMembersTail t ++ ('}' :: rest)))) =
            dumpsVal v ++ (dumpsMembersTail t ++ ('}' :: rest)) := by
          rw [skipJsonWs_cons_ws _ _ (by decide)]
          rw [show dumpsVal v ++ (dumpsMembersTail t ++ ('}' :: rest)) =
            cv :: (Xv ++ (dumpsMembersTail t ++ ('}' :: rest))) from by simp [hcv]]
          rw [skipJsonWs_cons _ _ hwsv]
        rw [hskipv, ihv v (dumpsMembersTail t ++ ('}' :: rest)) (by omega)
          (by cases t <;> rfl)]
        cases t with
        | nil => rfl
        | cons m2 t2 =>
          obtain ⟨k2, v2⟩ := m2
          have hw2len : (dumpsMembersTail ((k2, v2) :: t2)).length =
              (dumpsMembers ((k2, v2) :: t2)).length + 2 := by
            simp [dumpsMembersTail, dumpsMembers]
          have hfuel2 : (dumpsMembers ((k2, v2) :: t2)).length + 1 < f := by omega
          have hskipm : skipJsonWs (dumpsMembers ((k2, v2) :: t2) ++ ('}' :: rest)) =
              dumpsMembers ((k2, v2) :: t2) ++ ('}' :: rest) := by
            rw [show dumpsMembers ((k2, v2) :: t2) ++ ('}' :: rest) =
              '"' :: ((escapeStr k2.toList ++
                ('"' :: ':' :: ' ' :: (dumpsVal v2 ++ (dumpsMembersTail t2 ++ ('}' :: rest))))))
              from by simp [dumpsMembers]]
            rw [skipJsonWs_cons _ _ (by decide)]
          show (match skipJsonWs (',' :: ' ' :: (dumpsMembers ((k2, v2) :: t2) ++ ('}' :: rest))) with
                | ',' :: r4 =>
                  (parseMembers f (skipJsonWs r4)).map
                    (fun p : List (String × Json) × List Char =>
                      ((k.toList.asString, v) :: p.1, p.2))
                | '}' :: r4 => some ([(k.toList.asString, v)], r4)
                | _ => none) = some ((k, v) :: (k2, v2) :: t2, rest)
          rw [skipJsonWs_cons _ _ (by decide)]
          show (parseMembers f (skipJsonWs (' ' :: (dumpsMembers ((k2, v2) :: t2) ++ ('}' :: rest))))).map
              (fun p : List (String × Json) × List Char =>
                ((k.toList.asString, v) :: p.1, p.2)) = some ((k, v) :: (k2, v2) :: t2, rest)
          rw [skipJsonWs_cons_ws _ _ (by decide), hskipm,
            ihm ((k2, v2) :: t2) rest (by simp) hfuel2]
          rfl

/-! ### Round trip: loads, strip and try_parse_json -/

/-- `dropWhile` keeps at least the last character when that character is
not dropped. -/
theorem dropWhile_append_singleton_ne_nil (p : Char → Bool) (c : Char) (h : p c = false) :
    ∀ Y : List Char, (Y ++ [c]).dropWhile p ≠ []
  | [] => by simp [List.dropWhile_cons, h]
  | y :: Y => by
    by_cases hy : p y
    · simpa [List.dropWhile_cons, hy] using dropWhile_append_singleton_ne_nil p c h Y
    · simp [List.dropWhile_cons, hy]

/-- `str.strip()` of a string with a non-space first character is nonempty. -/
theorem pyStripL_cons_isEmpty (c : Char) (X : List Char) (h : isPySpace c = false) :
    (pyStripL (c :: X)).isEmpty = false := by
  unfold pyStripL
  rw [List.dropWhile_cons, if_neg (by simp [h]), List.reverse_cons]
  cases hdw : (X.reverse ++ [c]).dropWhile isPySpace with
  | nil => exact absurd hdw (dropWhile_append_singleton_ne_nil isPySpace c h X.reverse)
  | cons d D => simp

/-- `str.strip()` is the identity when both ends are non-space. -/
theorem pyStripL_id (a b : Char) (mid : List Char)
    (ha : isPySpace a = false) (hb : isPySpace b = false) :
    pyStripL (a :: (mid ++ [b])) = a :: (mid ++ [b]) := by
  unfold pyStripL
  rw [List.dropWhile_cons, if_neg (by simp [ha]),
    show (a :: (mid ++ [b])).reverse = b :: (mid.reverse ++ [a]) by simp,
    List.dropWhile_cons, if_neg (by simp [hb])]
  simp

/-- `str.strip()` drops a trailing newline and keeps non-space ends. -/
theorem pyStripL_id_nl (a b : Char) (mid : List Char)
    (ha : isPySpace a = false) (hb : isPySpace b = false) :
    pyStripL ((a :: (mid ++ [b])) ++ ['\n']) = a :: (mid ++ [b]) := by
  unfold pyStripL
  rw [List.cons_append, List.dropWhile_cons, if_neg (by simp [ha]),
    show (a :: ((mid ++ [b]) ++ ['\n'])).reverse = '\n' :: (b :: (mid.reverse ++ [a])) by simp,
    List.dropWhile_cons, if_pos (by decide),
    List.dropWhile_cons, if_neg (by simp [hb])]
  simp

/-- `json.loads` inverts `json.dumps`. -/
theorem loads_dumps (j : Json) : loads (dumpsVal j) = some j := by
  obtain ⟨c, X, hcx, hws, -, -⟩ := dumpsVal_cons j
  have hrt := (parse_dumps_roundTrip ((dumpsVal j).length + 1)).1 j [] (by omega) rfl
  rw [List.append_nil] at hrt
  unfold loads
  rw [hcx, skipJsonWs_cons _ _ hws, ← hcx, hrt]
  rfl

/-- `_try_parse_json` accepts a serialized dict unchanged. -/
theorem try_parse_json_dumps (ms : List (String × Json)) :
    try_parse_json (dumpsVal (Json.obj ms)) = some (Json.obj ms) := by
  have hshape : dumpsVal (Json.obj ms) = '{' :: (dumpsMembers ms ++ ['}']) := rfl
  simp only [try_parse_json]
  rw [hshape, pyStripL_id '{' '}' (dumpsMembers ms) (by decide) (by decide), ← hshape,
    loads_dumps]
  rfl

/-! ### The tag searches of the response parser -/

/-- `matchCloseTag` fails unless the text starts with `</`. -/
theorem matchCloseTag_cons_ne (tag : List Char) (x y : Char) (rest : List Char)
    (h : ¬(x = '<' ∧ y = '/')) : matchCloseTag tag (x :: y :: rest) = none := by
  simp [matchCloseTag, h]

/-- Tails of a pair-free list are pair-free. -/
theorem hasPair2_tail (a b x : Char) (l : List Char)
    (h : hasPair2 a b (x :: l) = false) : hasPair2 a b l = false := by
  cases l with
  | nil => rfl
  | cons y r =>
    simp only [hasPair2, Bool.or_eq_false_iff] at h
    exact h.2

/-- No close marker starts at the head of `x :: (s ++ t)` when `x :: s` is
pair-free and `t` does not begin with a slash. -/
theorem matchCloseTag_append_head (tag : List Char) (x : Char) (s t : List Char)
    (hp : hasPair2 '<' '/' (x :: s) = false)
    (ht : ∀ c, t.head? = some c → c ≠ '/') :
    matchCloseTag tag (x :: (s ++ t)) = none := by
  cases s with
  | nil =>
    cases t with
    | nil => rfl
    | cons c t' => exact matchCloseTag_cons_ne tag x c t' (fun hxy => ht c rfl hxy.2)
  | cons y s' =>
    apply matchCloseTag_cons_ne
    intro hxy
    simp [hasPair2, hxy.1, hxy.2] at hp

/-- The first close marker of an appended text lies in the right part when
the left part is pair-free and the right part does not begin with `/`. -/
theorem findCloseTag_append (tag : List Char) :
    ∀ s t : List Char, hasPair2 '<' '/' s = false →
    (∀ c, t.head? = some c → c ≠ '/') →
    findCloseTag tag (s ++ t) = (findCloseTag tag t).map (fun p => (s ++ p.1, p.2))
  | [], t, _, _ => by cases h : findCloseTag tag t <;> exact h
  | x :: s, t, hp, ht => by
    show findCloseTag tag (x :: (s ++ t)) = _
    simp only [findCloseTag, matchCloseTag_append_head tag x s t hp ht]
    rw [findCloseTag_append tag s t (hasPair2_tail _ _ _ _ hp) ht]
    cases findCloseTag tag t <;> simp

/-- `hasCloseTag` over an appended text, with a pair-free left part. -/
theorem hasCloseTag_append (tag : List Char) :
    ∀ s t : List Char, hasPair2 '<' '/' s = false →
    (∀ c, t.head? = some c → c ≠ '/') →
    hasCloseTag tag (s ++ t) = hasCloseTag tag t
  | [], _, _, _ => rfl
  | x :: s, t, hp, ht => by
    show hasCloseTag tag (x :: (s ++ t)) = _
    simp only [hasCloseTag, matchCloseTag_append_head tag x s t hp ht,
      Option.isSome_none, Bool.false_or]
    exact hasCloseTag_append tag s t (hasPair2_tail _ _ _ _ hp) ht

/-- A close-tag-free text has no close marker at any suffix. -/
theorem matchCloseTag_none_of_hasClose (tag : List Char) :
    ∀ X Y : List Char, hasCloseTag tag X = false → Y <:+ X → matchCloseTag tag Y = none
  | [], Y, _, hs => by rw [List.suffix_nil.mp hs]; rfl
  | x :: X, Y, h, hs => by
    have h' : (matchCloseTag tag (x :: X)).isSome = false ∧ hasCloseTag tag X = false := by
      simpa [hasCloseTag] using h
    rcases List.suffix_cons_iff.mp hs with rfl | hs'
    · cases hmc : matchCloseTag tag (x :: X) with
      | none => rfl
      | some a => rw [hmc] at h'; simp at h'
    · exact matchCloseTag_none_of_hasClose tag X Y h'.2 hs'

/-- No close marker at any suffix defeats `findCloseTag`. -/
theorem findCloseTag_none (tag : List Char) :
    ∀ X : List Char, (∀ Y, Y <:+ X → matchCloseTag tag Y = none) →
    findCloseTag tag X = none
  | [], _ => rfl
  | c :: X, h => by
    simp only [findCloseTag, h (c :: X) (List.suffix_refl _)]
    rw [findCloseTag_none tag X (fun Y hY => h Y (hY.trans (List.suffix_cons c X)))]
    rfl

/-- `eatTagCI` returns a suffix of its input. -/
theorem eatTagCI_suffix : ∀ (tag cs r : List Char), eatTagCI tag cs = some r → r <:+ cs
  | [], cs, r, h => by cases h; exact List.suffix_refl _
  | t :: ts, [], r, h => by simp [eatTagCI] at h
  | t :: ts, c :: cs, r, h => by
    by_cases hc : pyLowerChar c = t
    · simp only [eatTagCI, if_pos hc] at h
      exact (eatTagCI_suffix ts cs r h).trans (List.suffix_cons c cs)
    · simp only [eatTagCI, if_neg hc] at h
      exact Option.noConfusion h

/-- `matchOpenTag` returns a suffix of its input. -/
theorem matchOpenTag_suffix (tag cs r : List Char) (h : matchOpenTag tag cs = some r) :
    r <:+ cs := by
  cases cs with
  | nil => simp [matchOpenTag] at h
  | cons c rest =>
    simp only [matchOpenTag] at h
    by_cases hc : c = '<'
    · rw [if_pos hc] at h
      cases he : eatTagCI tag rest with
      | none => rw [he] at h; exact Option.noConfusion h
      | some r1 =>
        rw [he] at h
        have h' : (match List.dropWhile isPySpace r1 with
            | '>' :: r2 => some r2
            | _ => none) = some r := h
        clear h
        cases hdw : List.dropWhile isPySpace r1 with
        | nil => rw [hdw] at h'; exact Option.noConfusion h'
        | cons d D =>
          rw [hdw] at h'
          by_cases hd : d = '>'
          · subst hd
            have h3 : some D = some r := h'
            have h4 : D = r := by injection h3
            rw [h4] at hdw
            exact ((List.suffix_cons '>' r).trans
              (hdw ▸ List.dropWhile_suffix isPySpace)).trans
              ((eatTagCI_suffix tag rest r1 he).trans (List.suffix_cons c rest))
          · have hnone : (match d :: D with
                | '>' :: r2 => some r2
                | _ => none) = (none : Option (List Char)) := by
              split
              · rename_i heq2
                injection heq2 with h5 h6
                exact absurd h5 hd
              · rfl
            rw [hnone] at h'
            exact Option.noConfusion h'
    · rw [if_neg hc] at h; exact Option.noConfusion h

/-- A text with no close tag anywhere defeats `searchTag`. -/
theorem searchTag_none (tag : List Char) :
    ∀ text : List Char, hasCloseTag tag text = false → searchTag tag text = none
  | [], _ => rfl
  | c :: rest, h => by
    have h' : (matchCloseTag tag (c :: rest)).isSome = false
        ∧ hasCloseTag tag rest = false := by
      simpa [hasCloseTag] using h
    cases ho : matchOpenTag tag (c :: rest) with
    | none =>
      simp only [searchTag, ho]
      exact searchTag_none tag rest h'.2
    | some afterOpen =>
      have hfct : findCloseTag tag afterOpen = none :=
        findCloseTag_none tag afterOpen (fun Y hY =>
          matchCloseTag_none_of_hasClose tag (c :: rest) Y h
            (hY.trans (matchOpenTag_suffix tag (c :: rest) afterOpen ho)))
      simp only [searchTag, ho, hfct]
      exact searchTag_none tag rest h'.2

/-! ### The fence search of the response parser -/

/-- `matchTriple` fails off a non-fence head. -/
theorem matchTriple_eq_none (l : List Char) (h : ∀ r, l ≠ '`' :: '`' :: '`' :: r) :
    matchTriple l = none := by
  rw [matchTriple.eq_def]
  split
  · rename_i r
    exact absurd rfl (h r)
  · rfl

/-- Tails of a triple-free text are triple-free. -/
theorem hasTriple_tail (x : Char) (l : List Char)
    (h : hasTriple (x :: l) = false) : hasTriple l = false := by
  cases l with
  | nil => rfl
  | cons y r =>
    cases r with
    | nil => rfl
    | cons z r' =>
      simp only [hasTriple, Bool.or_eq_false_iff] at h
      exact h.2

/-- The head window of a triple-free text is not a fence. -/
theorem matchTriple_none_of_hasTriple (X : List Char) (h : hasTriple X = false) :
    matchTriple X = none :=
  matchTriple_eq_none X (fun r heq => by rw [heq] at h; simp [hasTriple] at h)

/-- A triple-free text defeats `fenceSearch`. -/
theorem fenceSearch_none : ∀ text : List Char, hasTriple text = false →
    fenceSearch text = none
  | [], _ => rfl
  | c :: rest, h => by
    simp only [fenceSearch, matchTriple_none_of_hasTriple (c :: rest) h]
    exact fenceSearch_none rest (hasTriple_tail c rest h)

/-- `hasTriple` over an appended text whose left part is triple-free and
whose right part does not begin with a backtick. -/
theorem hasTriple_append : ∀ s t : List Char, hasTriple s = false →
    (∀ c, t.head? = some c → c ≠ '`') → hasTriple (s ++ t) = hasTriple t
  | [], t, _, _ => rfl
  | [a], t, _, ht => by
    cases t with
    | nil => rfl
    | cons y t' =>
      cases t' with
      | nil => rfl
      | cons z t'' =>
        have hy : ¬(a = '`' ∧ y = '`' ∧ z = '`') := fun hyz => ht y rfl hyz.2.1
        show hasTriple (a :: y :: z :: t'') = hasTriple (y :: z :: t'')
        rw [show hasTriple (a :: y :: z :: t'') =
          (decide (a = '`' ∧ y = '`' ∧ z = '`') || hasTriple (y :: z :: t'')) from rfl]
        simp [hy]
  | a :: b :: s', t, hs, ht => by
    have htail : hasTriple (b :: s') = false := hasTriple_tail a _ hs
    have hrec : hasTriple ((b :: s') ++ t) = hasTriple t :=
      hasTriple_append (b :: s') t htail ht
    cases s' with
    | nil =>
      cases t with
      | nil => rfl
      | cons y t' =>
        have hy : ¬(a = '`' ∧ b = '`' ∧ y = '`') := fun hyz => ht y rfl hyz.2.2
        have hrec' : hasTriple (b :: y :: t') = hasTriple (y :: t') := hrec
        show hasTriple (a :: b :: y :: t') = hasTriple (y :: t')
        rw [show hasTriple (a :: b :: y :: t') =
          (decide (a = '`' ∧ b = '`' ∧ y = '`') || hasTriple (b :: y :: t')) from rfl]
        simp [hy, hrec']
    | cons e s'' =>
      simp only [hasTriple, Bool.or_eq_false_iff, decide_eq_false_iff_not] at hs
      have hrec' : hasTriple (b :: e :: (s'' ++ t)) = hasTriple t := hrec
      show hasTriple (a :: b :: e :: (s'' ++ t)) = hasTriple t
      rw [show hasTriple (a :: b :: e :: (s'' ++ t)) =
        (decide (a = '`' ∧ b = '`' ∧ e = '`') || hasTriple (b :: e :: (s'' ++ t))) from rfl]
      simp [hs.1, hrec']

/-- The first fence of `(s ++ [b]) ++ t` lies in `t` when `s ++ [b]` is
triple-free and `b` is not a backtick. -/
theorem findTriple_append_nb : ∀ (s : List Char) (b : Char) (t : List Char),
    hasTriple (s ++ [b]) = false → b ≠ '`' →
    findTriple ((s ++ [b]) ++ t) = (findTriple t).map (fun p => ((s ++ [b]) ++ p.1, p.2))
  | [], b, t, _, hb => by
    have hmt : matchTriple (b :: t) = none :=
      matchTriple_eq_none _ (fun r heq => hb (by cases heq; rfl))
    show findTriple (b :: t) = _
    simp [findTriple, hmt]
  | x :: s, b, t, hs, hb => by
    have hmt : matchTriple (x :: ((s ++ [b]) ++ t)) = none := by
      apply matchTriple_eq_none
      intro r heq
      simp only [List.cons_append, List.append_assoc] at heq
      injection heq with h1 h2
      cases s with
      | nil =>
        simp only [List.nil_append] at h2
        injection h2 with h3 h4
        exact hb h3
      | cons y s2 =>
        simp only [List.cons_append] at h2
        injection h2 with h3 h4
        cases s2 with
        | nil =>
          simp only [List.nil_append] at h4
          injection h4 with h5 h6
          exact hb h5
        | cons e s3 =>
          simp only [List.cons_append] at h4
          injection h4 with h5 h6
          rw [h1, h3, h5] at hs
          simp [hasTriple] at hs
    have htail : hasTriple (s ++ [b]) = false := by
      have : hasTriple (x :: (s ++ [b])) = false := by
        simpa [List.cons_append] using hs
      exact hasTriple_tail x _ this
    show findTriple (x :: ((s ++ [b]) ++ t)) = _
    simp only [findTriple, hmt]
    rw [findTriple_append_nb s b t htail hb]
    cases findTriple t <;> simp

/-- The head of an appended list avoids `x` when both parts' heads do. -/
theorem head_ne_of_append (x : Char) (s t : List Char)
    (hs : ∀ c, s.head? = some c → c ≠ x) (ht : ∀ c, t.head? = some c → c ≠ x) :
    ∀ c, (s ++ t).head? = some c → c ≠ x := by
  intro c hc
  cases s with
  | nil => exact ht c hc
  | cons a s' =>
    have ha : a = c := by simpa using hc
    exact ha ▸ hs a rfl

/-- No close tag anywhere in a sandwich whose bread is close-free. -/
theorem hasCloseTag_wrap (tag pre post s : List Char)
    (hpre : hasPair2 '<' '/' pre = false)
    (hs : hasPair2 '<' '/' s = false)
    (hpost : hasCloseTag tag post = false)
    (hsh : ∀ c, s.head? = some c → c ≠ '/')
    (hph : ∀ c, post.head? = some c → c ≠ '/') :
    hasCloseTag tag (pre ++ (s ++ post)) = false := by
  rw [hasCloseTag_append tag pre (s ++ post) hpre (head_ne_of_append '/' s post hsh hph),
    hasCloseTag_append tag s post hs hph, hpost]

/-- No fence anywhere in a sandwich whose bread is fence-free. -/
theorem hasTriple_wrap (pre post s : List Char)
    (hpre : hasTriple pre = false) (hs : hasTriple s = false)
    (hpost : hasTriple post = false)
    (hsh : ∀ c, s.head? = some c → c ≠ '`')
    (hph : ∀ c, post.head? = some c → c ≠ '`') :
    hasTriple (pre ++ (s ++ post)) = false := by
  rw [hasTriple_append pre (s ++ post) hpre (head_ne_of_append '`' s post hsh hph),
    hasTriple_append s post hs hph, hpost]

/-- `searchTag` on the `<r>` wrapping returns exactly the payload. -/
theorem searchTag_wrapR (s : List Char) (hp : hasPair2 '<' '/' s = false) :
    searchTag ['r'] (wrapR s) = some s := by
  show searchTag ['r'] ('<' :: 'r' :: '>' :: (s ++ ['<', '/', 'r', '>'])) = some s
  have hopen : matchOpenTag ['r'] ('<' :: 'r' :: '>' :: (s ++ ['<', '/', 'r', '>'])) =
      some (s ++ ['<', '/', 'r', '>']) := rfl
  simp only [searchTag, hopen]
  rw [findCloseTag_append ['r'] s ['<', '/', 'r', '>'] hp
    (fun c hc => by cases hc; decide)]
  rw [show findCloseTag ['r'] ['<', '/', 'r', '>'] = some ([], []) from rfl]
  simp

/-- `searchTag` on the `<result>` wrapping returns exactly the payload. -/
theorem searchTag_wrapResult (s : List Char) (hp : hasPair2 '<' '/' s = false) :
    searchTag ['r', 'e', 's', 'u', 'l', 't'] (wrapResult s) = some s := by
  show searchTag ['r', 'e', 's', 'u', 'l', 't']
    ('<' :: 'r' :: 'e' :: 's' :: 'u' :: 'l' :: 't' :: '>' ::
      (s ++ ['<', '/', 'r', 'e', 's', 'u', 'l', 't', '>'])) = some s
  have hopen : matchOpenTag ['r', 'e', 's', 'u', 'l', 't']
      ('<' :: 'r' :: 'e' :: 's' :: 'u' :: 'l' :: 't' :: '>' ::
        (s ++ ['<', '/', 'r', 'e', 's', 'u', 'l', 't', '>'])) =
      some (s ++ ['<', '/', 'r', 'e', 's', 'u', 'l', 't', '>']) := rfl
  simp only [searchTag, hopen]
  rw [findCloseTag_append ['r', 'e', 's', 'u', 'l', 't'] s
    ['<', '/', 'r', 'e', 's', 'u', 'l', 't', '>'] hp (fun c hc => by cases hc; decide)]
  rw [show findCloseTag ['r', 'e', 's', 'u', 'l', 't']
    ['<', '/', 'r', 'e', 's', 'u', 'l', 't', '>'] = some ([], []) from rfl]
  simp

/-- `fenceSearch` on the code-fence wrapping returns the payload plus the
trailing newline. -/
theorem fenceSearch_wrapFence (mid : List Char)
    (htr : hasTriple ('{' :: mid) = false) :
    fenceSearch (wrapFence ('{' :: mid)) = some (('{' :: mid) ++ ['\n']) := by
  show fenceSearch ('`' :: '`' :: '`' :: 'j' :: 's' :: 'o' :: 'n' :: '\n' ::
    (('{' :: mid) ++ ['\n', '`', '`', '`'])) = some (('{' :: mid) ++ ['\n'])
  have hmt : matchTriple ('`' :: '`' :: '`' :: 'j' :: 's' :: 'o' :: 'n' :: '\n' ::
      (('{' :: mid) ++ ['\n', '`', '`', '`'])) =
      some ('j' :: 's' :: 'o' :: 'n' :: '\n' :: (('{' :: mid) ++ ['\n', '`', '`', '`'])) := rfl
  simp only [fenceSearch, hmt]
  have hdw : (eatJsonTag ('j' :: 's' :: 'o' :: 'n' :: '\n' ::
      (('{' :: mid) ++ ['\n', '`', '`', '`']))).dropWhile isPySpace =
      '{' :: (mid ++ ['\n', '`', '`', '`']) := rfl
  rw [hdw]
  have hshape : ('{' : Char) :: (mid ++ ['\n', '`', '`', '`']) =
      ((('{' :: mid) ++ ['\n']) ++ ['`', '`', '`']) := by simp
  rw [hshape]
  have hnt : hasTriple (('{' :: mid) ++ ['\n']) = false := by
    rw [hasTriple_append ('{' :: mid) ['\n'] htr (fun c hc => by cases hc; decide)]
    rfl
  rw [findTriple_append_nb ('{' :: mid) '\n' ['`', '`', '`'] hnt (by decide)]
  rw [show findTriple ['`', '`', '`'] = some ([], []) from rfl]
  simp

/-! ### The raw-object fallback of the response parser -/

/-- `str.find` locates the serialization's opening brace in the plain-text
wrapping. -/
theorem pyFindChar_wrapText (mid : List Char) :
    pyFindChar '{' (wrapText ('{' :: mid)) = some 7 := rfl

/-- `str.rfind` locates the serialization's closing brace in the plain-text
wrapping. -/
theorem pyRFindChar_wrapText (mid : List Char) :
    pyRFindChar '}' (wrapText ('{' :: (mid ++ ['}']))) =
      some (('{' :: (mid ++ ['}'])).length + 6) := by
  unfold pyRFindChar
  have hP : "prefix ".toList = ['p', 'r', 'e', 'f', 'i', 'x', ' '] := rfl
  have hS : " suffix".toList = [' ', 's', 'u', 'f', 'f', 'i', 'x'] := rfl
  have hrev : (wrapText ('{' :: (mid ++ ['}']))).reverse =
      'x' :: 'i' :: 'f' :: 'f' :: 'u' :: 's' :: ' ' :: '}' ::
        (mid.reverse ++ ['{', ' ', 'x', 'i', 'f', 'e', 'r', 'p']) := by
    simp [wrapText, hP, hS]
  rw [hrev]
  rw [show pyFindChar '}' ('x' :: 'i' :: 'f' :: 'f' :: 'u' :: 's' :: ' ' :: '}' ::
    (mid.reverse ++ ['{', ' ', 'x', 'i', 'f', 'e', 'r', 'p'])) = some 7 from rfl]
  simp [wrapText, hP, hS]

/-- The widest brace span of the plain-text wrapping recovers exactly the
serialized dict. -/
theorem extract_raw_wrapText (ms : List (String × Json)) :
    extract_raw_json_object (wrapText (dumpsVal (Json.obj ms))) = some (Json.obj ms) := by
  have hshape : dumpsVal (Json.obj ms) = '{' :: (dumpsMembers ms ++ ['}']) := rfl
  simp only [extract_raw_json_object]
  rw [hshape, pyFindChar_wrapText (dumpsMembers ms ++ ['}']),
    pyRFindChar_wrapText (dumpsMembers ms)]
  show (if (('{' :: (dumpsMembers ms ++ ['}'])).length + 6) ≤ 7 then (none : Option Json)
      else
        match try_parse_json (List.drop 7 (List.take ((('{' :: (dumpsMembers ms ++ ['}'])).length + 6) + 1)
            (wrapText ('{' :: (dumpsMembers ms ++ ['}']))))) with
        | some j => some j
        | none =>
          scanBalancedAux [] 0 false false
            (List.drop 7 (wrapText ('{' :: (dumpsMembers ms ++ ['}']))))) =
      some (Json.obj ms)
  rw [if_neg (by simp)]
  rw [show ('{' :: (dumpsMembers ms ++ ['}'])).length + 6 + 1 =
    ("prefix ".toList).length + ('{' :: (dumpsMembers ms ++ ['}'])).length from by
      simp
      omega]
  rw [show wrapText ('{' :: (dumpsMembers ms ++ ['}'])) =
    "prefix ".toList ++ (('{' :: (dumpsMembers ms ++ ['}'])) ++ " suffix".toList) from rfl]
  rw [List.take_append, List.take_left]
  rw [show (7 : Nat) = ("prefix ".toList).length from rfl, List.drop_left]
  rw [← hshape, try_parse_json_dumps]

/-! ### The four wrappings of claim C6 -/

/-- Extraction from the `<r>` wrapping (strategy 1). -/
theorem extract_wrapR (ms : List (String × Json))
    (hp : hasPair2 '<' '/' (dumpsVal (Json.obj ms)) = false) :
    extract_json_from_llm_response (wrapR (dumpsVal (Json.obj ms))) =
      some (Json.obj ms) := by
  have hshape : dumpsVal (Json.obj ms) = '{' :: (dumpsMembers ms ++ ['}']) := rfl
  have hne : (pyStripL (wrapR (dumpsVal (Json.obj ms)))).isEmpty = false := by
    rw [show wrapR (dumpsVal (Json.obj ms)) =
      '<' :: ('r' :: '>' :: (dumpsVal (Json.obj ms) ++ ['<', '/', 'r', '>'])) from rfl]
    exact pyStripL_cons_isEmpty _ _ (by decide)
  have hsearch := searchTag_wrapR (dumpsVal (Json.obj ms)) hp
  have hparse : try_parse_json (pyStripL (dumpsVal (Json.obj ms))) = some (Json.obj ms) := by
    rw [hshape, pyStripL_id '{' '}' _ (by decide) (by decide), ← hshape]
    exact try_parse_json_dumps ms
  simp only [extract_json_from_llm_response, hne, hsearch, hparse]
  rfl

/-- Extraction from the `<result>` wrapping (strategy 2, after strategy 1
fails). -/
theorem extract_wrapResult (ms : List (String × Json))
    (hp : hasPair2 '<' '/' (dumpsVal (Json.obj ms)) = false) :
    extract_json_from_llm_response (wrapResult (dumpsVal (Json.obj ms))) =
      some (Json.obj ms) := by
  have hshape : dumpsVal (Json.obj ms) = '{' :: (dumpsMembers ms ++ ['}']) := rfl
  have hslash : ∀ c, (dumpsVal (Json.obj ms)).head? = some c → c ≠ '/' := by
    intro c hc
    rw [hshape] at hc
    simp at hc
    subst hc
    decide
  have hne : (pyStripL (wrapResult (dumpsVal (Json.obj ms)))).isEmpty = false := by
    rw [show wrapResult (dumpsVal (Json.obj ms)) =
      '<' :: ('r' :: 'e' :: 's' :: 'u' :: 'l' :: 't' :: '>' ::
        (dumpsVal (Json.obj ms) ++ ['<', '/', 'r', 'e', 's', 'u', 'l', 't', '>'])) from rfl]
    exact pyStripL_cons_isEmpty _ _ (by decide)
  have hs1 : searchTag ['r'] (wrapResult (dumpsVal (Json.obj ms))) = none := by
    apply searchTag_none
    show hasCloseTag ['r'] (['<', 'r', 'e', 's', 'u', 'l', 't', '>'] ++
      (dumpsVal (Json.obj ms) ++ ['<', '/', 'r', 'e', 's', 'u', 'l', 't', '>'])) = false
    exact hasCloseTag_wrap ['r'] _ _ _ (by decide) hp (by decide) hslash
      (fun c hc => by cases hc; decide)
  have hs2 := searchTag_wrapResult (dumpsVal (Json.obj ms)) hp
  have hparse : try_parse_json (pyStripL (dumpsVal (Json.obj ms))) = some (Json.obj ms) := by
    rw [hshape, pyStripL_id '{' '}' _ (by decide) (by decide), ← hshape]
    exact try_parse_json_dumps ms
  simp only [extract_json_from_llm_response, hne, hs1, hs2, hparse]
  rfl

/-- Extraction from the code-fence wrapping (strategy 3, after the tag
strategies fail). -/
theorem extract_wrapFence (ms : List (String × Json))
    (hp : hasPair2 '<' '/' (dumpsVal (Json.obj ms)) = false)
    (htr : hasTriple (dumpsVal (Json.obj ms)) = false) :
    extract_json_from_llm_response (wrapFence (dumpsVal (Json.obj ms))) =
      some (Json.obj ms) := by
  have hshape : dumpsVal (Json.obj ms) = '{' :: (dumpsMembers ms ++ ['}']) := rfl
  have hslash : ∀ c, (dumpsVal (Json.obj ms)).head? = some c → c ≠ '/' := by
    intro c hc
    rw [hshape] at hc
    simp at hc
    subst hc
    decide
  have hne : (pyStripL (wrapFence (dumpsVal (Json.obj ms)))).isEmpty = false := by
    rw [show wrapFence (dumpsVal (Json.obj ms)) =
      '`' :: ('`' :: '`' :: 'j' :: 's' :: 'o' :: 'n' :: '\n' ::
        (dumpsVal (Json.obj ms) ++ ['\n', '`', '`', '`'])) from rfl]
    exact pyStripL_cons_isEmpty _ _ (by decide)
  have hs1 : searchTag ['r'] (wrapFence (dumpsVal (Json.obj ms))) = none := by
    apply searchTag_none
    show hasCloseTag ['r'] (['`', '`', '`', 'j', 's', 'o', 'n', '\n'] ++
      (dumpsVal (Json.obj ms) ++ ['\n', '`', '`', '`'])) = false
    exact hasCloseTag_wrap ['r'] _ _ _ (by decide) hp (by decide) hslash
      (fun c hc => by cases hc; decide)
  have hs2 : searchTag ['r', 'e', 's', 'u', 'l', 't']
      (wrapFence (dumpsVal (Json.obj ms))) = none := by
    apply searchTag_none
    show hasCloseTag ['r', 'e', 's', 'u', 'l', 't'] (['`', '`', '`', 'j', 's', 'o', 'n', '\n'] ++
      (dumpsVal (Json.obj ms) ++ ['\n', '`', '`', '`'])) = false
    exact hasCloseTag_wrap ['r', 'e', 's', 'u', 'l', 't'] _ _ _ (by decide) hp (by decide) hslash
      (fun c hc => by cases hc; decide)
  have hf : fenceSearch (wrapFence (dumpsVal (Json.obj ms))) =
      some (dumpsVal (Json.obj ms) ++ ['\n']) := by
    rw [hshape]
    exact fenceSearch_wrapFence _ (hshape ▸ htr)
  have hparse : try_parse_json (pyStripL (dumpsVal (Json.obj ms) ++ ['\n'])) =
      some (Json.obj ms) := by
    rw [hshape, pyStripL_id_nl '{' '}' _ (by decide) (by decide), ← hshape]
    exact try_parse_json_dumps ms
  simp only [extract_json_from_llm_response, hne, hs1, hs2, hf, hparse]
  rfl

/-- Extraction from the plain-text wrapping (strategy 4, after all pattern
strategies fail). -/
theorem extract_wrapText (ms : List (String × Json))
    (hp : hasPair2 '<' '/' (dumpsVal (Json.obj ms)) = false)
    (htr : hasTriple (dumpsVal (Json.obj ms)) = false) :
    extract_json_from_llm_response (wrapText (dumpsVal (Json.obj ms))) =
      some (Json.obj ms) := by
  have hshape : dumpsVal (Json.obj ms) = '{' :: (dumpsMembers ms ++ ['}']) := rfl
  have hslash : ∀ c, (dumpsVal (Json.obj ms)).head? = some c → c ≠ '/' := by
    intro c hc
    rw [hshape] at hc
    simp at hc
    subst hc
    decide
  have hbt : ∀ c, (dumpsVal (Json.obj ms)).head? = some c → c ≠ '`' := by
    intro c hc
    rw [hshape] at hc
    simp at hc
    subst hc
    decide
  have hne : (pyStripL (wrapText (dumpsVal (Json.obj ms)))).isEmpty = false := by
    rw [show wrapText (dumpsVal (Json.obj ms)) =
      'p' :: ('r' :: 'e' :: 'f' :: 'i' :: 'x' :: ' ' ::
        (dumpsVal (Json.obj ms) ++ " suffix".toList)) from rfl]
    exact pyStripL_cons_isEmpty _ _ (by decide)
  have hs1 : searchTag ['r'] (wrapText (dumpsVal (Json.obj ms))) = none := by
    apply searchTag_none
    show hasCloseTag ['r'] ("prefix ".toList ++
      (dumpsVal (Json.obj ms) ++ " suffix".toList)) = false
    exact hasCloseTag_wrap ['r'] _ _ _ (by decide) hp (by decide) hslash
      (fun c hc => by cases hc; decide)
  have hs2 : searchTag ['r', 'e', 's', 'u', 'l', 't']
      (wrapText (dumpsVal (Json.obj ms))) = none := by
    apply searchTag_none
    show hasCloseTag ['r', 'e', 's', 'u', 'l', 't'] ("prefix ".toList ++
      (dumpsVal (Json.obj ms) ++ " suffix".toList)) = false
    exact hasCloseTag_wrap ['r', 'e', 's', 'u', 'l', 't'] _ _ _ (by decide) hp (by decide)
      hslash (fun c hc => by cases hc; decide)
  have hs3 : fenceSearch (wrapText (dumpsVal (Json.obj ms))) = none := by
    apply fenceSearch_none
    show hasTriple ("prefix ".toList ++
      (dumpsVal (Json.obj ms) ++ " suffix".toList)) = false
    exact hasTriple_wrap _ _ _ (by decide) htr (by decide) hbt
      (fun c hc => by cases hc; decide)
  have hraw := extract_raw_wrapText ms
  simp only [extract_json_from_llm_response, hne, hs1, hs2, hs3, hraw]
  rfl

/-- **C6, counterexample.**  The round-trip law fails as stated: for the
dict `{"a": "<r>{}</r>"}` — whose serialization carries a complete
`<r>…</r>` fragment inside a string value — the `"prefix " + s + " suffix"`
wrapping is captured by strategy 1, which returns the inner `{}` instead of
the original dict. -/
theorem extract_json_roundtrip_counterexample :
    extract_json_from_llm_response (wrapText (dumpsVal counterexampleDict)) =
      some (Json.obj [])
    ∧ Json.obj [] ≠ counterexampleDict := by
  refine ⟨rfl, ?_⟩
  simp [counterexampleDict]

/-- **C6, amended.**  Round-trip law of the Response Parser, provided the
serialization contains no `</` two-character sequence and no backtick
triple: for every dict `d` (a member list; duplicate keys are immaterial)
with serialization `s = dumps(d)`, `extract_json_from_llm_response` returns
`d` on each of `'<r>'+s+'</r>'`, `'<result>'+s+'</result>'`, the markdown
code fence  ```json⏎s⏎``` , and `'prefix '+s+' suffix'`. -/
theorem extract_json_roundtrip_amended (ms : List (String × Json))
    (hp : hasPair2 '<' '/' (dumpsVal (Json.obj ms)) = false)
    (htr : hasTriple (dumpsVal (Json.obj ms)) = false) :
    extract_json_from_llm_response (wrapR (dumpsVal (Json.obj ms))) = some (Json.obj ms)
    ∧ extract_json_from_llm_response (wrapResult (dumpsVal (Json.obj ms))) =
        some (Json.obj ms)
    ∧ extract_json_from_llm_response (wrapFence (dumpsVal (Json.obj ms))) =
        some (Json.obj ms)
    ∧ extract_json_from_llm_response (wrapText (dumpsVal (Json.obj ms))) =
        some (Json.obj ms) :=
  ⟨extract_wrapR ms hp, extract_wrapResult ms hp,
    extract_wrapFence ms hp htr, extract_wrapText ms hp htr⟩

/-- **C6 amended, witness.**  The amended round trip at the concrete dict
`{"a": -12, "b": "ok"}`. -/
theorem extract_json_roundtrip_amended_witness :
    (hasPair2 '<' '/' (dumpsVal (Json.obj [("a", Json.num (-12)), ("b", Json.str "ok")])) = false
     ∧ hasTriple (dumpsVal (Json.obj [("a", Json.num (-12)), ("b", Json.str "ok")])) = false)
    ∧ extract_json_from_llm_response
        (wrapR (dumpsVal (Json.obj [("a", Json.num (-12)), ("b", Json.str "ok")]))) =
        some (Json.obj [("a", Json.num (-12)), ("b", Json.str "ok")])
    ∧ extract_json_from_llm_response
        (wrapResult (dumpsVal (Json.obj [("a", Json.num (-12)), ("b", Json.str "ok")]))) =
        some (Json.obj [("a", Json.num (-12)), ("b", Json.str "ok")])
    ∧ extract_json_from_llm_response
        (wrapFence (dumpsVal (Json.obj [("a", Json.num (-12)), ("b", Json.str "ok")]))) =
        some (Json.obj [("a", Json.num (-12)), ("b", Json.str "ok")])
    ∧ extract_json_from_llm_response
        (wrapText (dumpsVal (Json.obj [("a", Json.num (-12)), ("b", Json.str "ok")]))) =
        some (Json.obj [("a", Json.num (-12)), ("b", Json.str "ok")]) :=
  ⟨⟨by decide, by decide⟩,
    extract_json_roundtrip_amended [("a", Json.num (-12)), ("b", Json.str "ok")]
      (by decide) (by decide)⟩
